import Mathlib

/-!
# Arduino PID library: a shallow embedding of `PID.cpp`

The controller object of `src/PID.cpp` is modelled as a record with one field
per data member of `class PID` (`src/PID.h`), and every member function as a
function on that record.

Modelling conventions.

* A `double` is an exact rational number.  Rounding, infinities and NaN are
  outside the model.  A floating-point division is *guarded*: dividing by zero
  has no rational value and yields `Fault.divByZero`.  The source does not
  trap on such a division, it goes on to the end of the function; the fault
  therefore carries the object as the call leaves it, in which the members
  that were to receive a value computed from the missing quotient still hold
  the value they had (in the program they hold no number).  What the program
  does with such a member afterwards is followed in a second reading of the
  same functions, over values that are a rational number or NaN (`PIDNaN`).
* An `unsigned long` is a natural number; the only machine subtraction of the
  source (`now - m_prevTime`, `millis() - m_sampleTime`) wraps modulo `2 ^ w`,
  where `w` is the width of `unsigned long` (32 on AVR).
* The three bound references `m_input`, `m_output`, `m_setpoint` are three
  distinct cells stored in the record.
* `millis()` is an explicit argument of the two functions that read the clock.
* The constructor initialises only some members.  The members it does not
  write keep whatever the memory held, so `Construct` takes that memory as an
  argument.
-/

/-- Data members of `class PID` (`PID.h` lines 27-49), source names kept. -/
structure PID where
  m_isEnabled : Bool
  m_dispP : ℚ
  m_dispI : ℚ
  m_dispD : ℚ
  m_p : ℚ
  m_i : ℚ
  m_d : ℚ
  m_inMin : ℚ
  m_inMax : ℚ
  m_outMin : ℚ
  m_outMax : ℚ
  m_input : ℚ
  m_output : ℚ
  m_setpoint : ℚ
  m_sampleTime : Nat
  m_prevTime : Nat
  m_prevInput : ℚ
  m_iTerm : ℚ
deriving DecidableEq, Repr

namespace PID

/-- The only way an operation can leave the rational model: a division by
zero.  `after` is the object as the call leaves it; a member whose new value
depends on the missing quotient keeps its old value in this record. -/
inductive Fault where
  | divByZero (after : PID)
deriving DecidableEq, Repr

/-- The object as a call leaves it, whether or not the call stayed in the model. -/
def objectAfter : Except Fault PID → PID
  | Except.ok s => s
  | Except.error (Fault.divByZero s) => s

/-- Subtraction of two `unsigned long` values of width `w`: `a - b` modulo `2 ^ w`. -/
def wsub (w a b : Nat) : Nat :=
  (a % 2 ^ w + (2 ^ w - b % 2 ^ w)) % 2 ^ w

/-- Guarded division of two `double` values: no value when the divisor is zero. -/
def fdiv (a b : ℚ) : Option ℚ :=
  if b = 0 then none else some (a / b)

/-- `PID::Clamp` (`PID.cpp` lines 191-198); the updated `val` is returned. -/
def Clamp (val min max : ℚ) : ℚ :=
  if val > max then max
  else if val < min then min
  else val

/-- `PID::Initialize` (`PID.cpp` lines 184-189). -/
def Initialize (s : PID) : PID :=
  let s1 := { s with m_iTerm := s.m_output }
  let s2 := { s1 with m_prevInput := s1.m_input }
  { s2 with m_iTerm := Clamp s2.m_iTerm s2.m_outMin s2.m_outMax }

/-- `PID::IsEnabled` (`PID.cpp` lines 86-89). -/
def IsEnabled (s : PID) : Bool :=
  s.m_isEnabled

/-- `PID::Enable` (`PID.cpp` lines 73-79). -/
def Enable (s : PID) : PID :=
  if !IsEnabled s then
    Initialize { s with m_isEnabled := true }
  else s

/-- `PID::Disable` (`PID.cpp` lines 81-84). -/
def Disable (s : PID) : PID :=
  { s with m_isEnabled := false }

/-- `PID::SetTunings` (`PID.cpp` lines 91-105).  The display gains, `m_p` and
`m_i` are written before the division, which faults when `m_sampleTime` is
zero; `m_d` is then left without a value. -/
def SetTunings (p i d : ℚ) (s : PID) : Except Fault PID :=
  if p < 0 ∨ i < 0 ∨ d < 0 then Except.ok s
  else
    let s1 := { s with m_dispP := p, m_dispI := i, m_dispD := d }
    let time : ℚ := (s1.m_sampleTime : ℚ) / 1000
    let s2 := { s1 with m_p := p }
    let s3 := { s2 with m_i := i * time }
    match fdiv d time with
    | none => Except.error (Fault.divByZero s3)
    | some q => Except.ok { s3 with m_d := q }

/-- `PID::SetInputLimits` (`PID.cpp` lines 110-122). -/
def SetInputLimits (min max : ℚ) (s : PID) : PID :=
  if min ≥ max then s
  else
    let s1 := { s with m_inMin := min, m_inMax := max }
    if s1.m_isEnabled then
      { s1 with m_input := Clamp s1.m_input s1.m_inMin s1.m_inMax }
    else s1

/-- `PID::SetOutputLimits` (`PID.cpp` lines 124-137). -/
def SetOutputLimits (min max : ℚ) (s : PID) : PID :=
  if min ≥ max then s
  else
    let s1 := { s with m_outMin := min, m_outMax := max }
    if s1.m_isEnabled then
      let s2 := { s1 with m_output := Clamp s1.m_output s1.m_outMin s1.m_outMax }
      { s2 with m_iTerm := Clamp s2.m_iTerm s2.m_outMin s2.m_outMax }
    else s1

/-- `PID::SetSampleTime` (`PID.cpp` lines 139-145).  There is no test of `val`
or of the old interval.  When the old interval is zero `ratio` has no value,
so neither scaled gain has one; when `val` is zero `ratio` is zero, `m_i`
becomes zero and the division of `m_d` faults.  Either way line 144 stores
`val`. -/
def SetSampleTime (val : Nat) (s : PID) : Except Fault PID :=
  match fdiv (val : ℚ) (s.m_sampleTime : ℚ) with
  | none => Except.error (Fault.divByZero { s with m_sampleTime := val })
  | some ratio =>
    let s1 := { s with m_i := s.m_i * ratio }
    match fdiv s1.m_d ratio with
    | none => Except.error (Fault.divByZero { s1 with m_sampleTime := val })
    | some q => Except.ok { s1 with m_d := q, m_sampleTime := val }

/-- `PID::GetSampleTime` (`PID.cpp` lines 147-150). -/
def GetSampleTime (s : PID) : Nat :=
  s.m_sampleTime

/-- `PID::GetP` (`PID.cpp` lines 169-172). -/
def GetP (s : PID) : ℚ :=
  s.m_dispP

/-- `PID::GetI` (`PID.cpp` lines 174-177). -/
def GetI (s : PID) : ℚ :=
  s.m_dispI

/-- `PID::GetD` (`PID.cpp` lines 179-182). -/
def GetD (s : PID) : ℚ :=
  s.m_dispD

/-- `PID::Compute` (`PID.cpp` lines 39-66).  `now` is the value `millis()`
returns; the function result is paired with the state after the call. -/
def Compute (w now : Nat) (s : PID) : Bool × PID :=
  if !s.m_isEnabled then (false, s)
  else if wsub w now s.m_prevTime ≥ s.m_sampleTime then
    let s1 := { s with m_input := Clamp s.m_input s.m_inMin s.m_inMax }
    let error := s1.m_setpoint - s1.m_input
    let s2 := { s1 with m_iTerm := s1.m_iTerm + s1.m_i * error }
    let s3 := { s2 with m_iTerm := Clamp s2.m_iTerm s2.m_outMin s2.m_outMax }
    let output := s3.m_p * error + s3.m_iTerm - s3.m_d * (s3.m_input - s3.m_prevInput)
    let output := Clamp output s3.m_outMin s3.m_outMax
    let s4 := { s3 with m_output := output }
    let s5 := { s4 with m_prevInput := s4.m_input }
    (true, { s5 with m_prevTime := now })
  else (false, s)

/-- The constructor `PID::PID` (`PID.cpp` lines 20-31).  `mem` is the content
of the object's memory before construction, `millis` the clock value read on
line 30.  Only `m_input`, `m_output`, `m_setpoint` and `m_isEnabled` are set by
the initialiser list; `SetTunings` on line 27 runs before `m_sampleTime` is
assigned on line 29.  A division by zero in `SetTunings` does not stop the
constructor: lines 29 and 30 run all the same. -/
def Construct (w millis : Nat) (mem : PID) (input output setpoint p i d : ℚ) :
    Except Fault PID :=
  let s0 := { mem with m_input := input, m_output := output, m_setpoint := setpoint,
                       m_isEnabled := false }
  let s1 := SetOutputLimits 0 255 s0
  match SetTunings p i d s1 with
  | Except.error (Fault.divByZero s2) =>
    let s3 := { s2 with m_sampleTime := 100 }
    Except.error (Fault.divByZero { s3 with m_prevTime := wsub w millis s3.m_sampleTime })
  | Except.ok s2 =>
    let s3 := { s2 with m_sampleTime := 100 }
    Except.ok { s3 with m_prevTime := wsub w millis s3.m_sampleTime }

/-- The public mutating operations of the controller, with their arguments. -/
inductive Op where
  | setTunings (p i d : ℚ)
  | setInputLimits (min max : ℚ)
  | setOutputLimits (min max : ℚ)
  | setSampleTime (val : Nat)
  | enable
  | disable
  | compute (now : Nat)
deriving DecidableEq, Repr

/-- State after one public operation. -/
def Op.run (w : Nat) (s : PID) : Op → Except Fault PID
  | Op.setTunings p i d => SetTunings p i d s
  | Op.setInputLimits min max => Except.ok (SetInputLimits min max s)
  | Op.setOutputLimits min max => Except.ok (SetOutputLimits min max s)
  | Op.setSampleTime val => SetSampleTime val s
  | Op.enable => Except.ok (Enable s)
  | Op.disable => Except.ok (Disable s)
  | Op.compute now => Except.ok (Compute w now s).2

/-- Whether a public operation, called on `s`, divides by zero: `SetTunings`
with accepted gains when the stored sample interval is zero (`PID.cpp` line
104), `SetSampleTime` when the stored or the new interval is zero (lines 141
and 143).  No other operation divides. -/
def Op.dividesByZero (s : PID) : Op → Prop
  | Op.setTunings p i d => ¬ (p < 0 ∨ i < 0 ∨ d < 0) ∧ s.m_sampleTime = 0
  | Op.setSampleTime val => s.m_sampleTime = 0 ∨ val = 0
  | _ => False

instance (s : PID) (op : Op) : Decidable (op.dividesByZero s) := by
  cases op <;> unfold Op.dividesByZero <;> infer_instance

/-- States the controller is brought to by a construction and a finite sequence
of public operations, with arbitrary arguments, none of which divides by zero:
every step demands a result inside the rational model (`run_ok_iff`,
`Construct_ok_iff`).  A history through a division by zero goes on in the
program with a member that holds no number; such histories are followed over
`PIDNaN`, not here.  The bound input, output and setpoint are written by the
controller only. -/
inductive Reachable (w : Nat) : PID → Prop where
  | construct (millis : Nat) (mem : PID) (input output setpoint p i d : ℚ) (s : PID)
      (h : Construct w millis mem input output setpoint p i d = Except.ok s) :
      Reachable w s
  | step (s t : PID) (op : Op) (hs : Reachable w s) (h : op.run w s = Except.ok t) :
      Reachable w t

/-- The reference step of one control-loop iteration, written as the closed
form the specification gives for it: every updated member is a function of the
state before the call, every other member is kept.  Its `clamp` is the `Clamp`
of the source, which for ordered bounds is the projection onto the interval
(`Clamp_eq_max_min`). -/
def referenceStep (now : Nat) (s : PID) : PID :=
  let input' := Clamp s.m_input s.m_inMin s.m_inMax
  let error := s.m_setpoint - input'
  let iTerm' := Clamp (s.m_iTerm + s.m_i * error) s.m_outMin s.m_outMax
  let output' :=
    Clamp (s.m_p * error + iTerm' - s.m_d * (input' - s.m_prevInput)) s.m_outMin s.m_outMax
  { s with m_input := input', m_iTerm := iTerm', m_output := output',
           m_prevInput := input', m_prevTime := now }

/-- Controller of the pure proportional scenario, enabled, before its first iteration. -/
def propStep : PID :=
  { m_isEnabled := true, m_dispP := 2, m_dispI := 0, m_dispD := 0,
    m_p := 2, m_i := 0, m_d := 0,
    m_inMin := 0, m_inMax := 1023, m_outMin := 0, m_outMax := 100,
    m_input := 10, m_output := 0, m_setpoint := 15,
    m_sampleTime := 100, m_prevTime := 0, m_prevInput := 10, m_iTerm := 0 }

/-- Some content of the object's memory before construction: none of it is
meaningful, and the limits it holds are not even ordered. -/
def staleMem : PID :=
  { m_isEnabled := true, m_dispP := 7, m_dispI := 7, m_dispD := 7,
    m_p := 7, m_i := 7, m_d := 7,
    m_inMin := 9, m_inMax := 4, m_outMin := 50, m_outMax := 50,
    m_input := 1, m_output := 1, m_setpoint := 1,
    m_sampleTime := 250, m_prevTime := 77, m_prevInput := 3, m_iTerm := 1000 }

/-- The controller `PID(input, output, setpoint, 200, 0, 0)` built over
`staleMem` at clock value 1000, with input 10, output 0 and setpoint 15. -/
def freshController : PID :=
  { m_isEnabled := false, m_dispP := 200, m_dispI := 0, m_dispD := 0,
    m_p := 200, m_i := 0, m_d := 0,
    m_inMin := 9, m_inMax := 4, m_outMin := 0, m_outMax := 255,
    m_input := 10, m_output := 0, m_setpoint := 15,
    m_sampleTime := 100, m_prevTime := 900, m_prevInput := 3, m_iTerm := 1000 }

/-- What construction establishes and every public operation keeps: the output
limits are strictly ordered, and while the controller is enabled the integral
term lies between them. -/
def OutputInv (s : PID) : Prop :=
  s.m_outMin < s.m_outMax ∧
    (s.m_isEnabled = true → s.m_outMin ≤ s.m_iTerm ∧ s.m_iTerm ≤ s.m_outMax)

instance (s : PID) : Decidable (OutputInv s) := by
  unfold OutputInv
  infer_instance

/-- `freshController` after `Enable()`. -/
def enabledController : PID :=
  { freshController with m_isEnabled := true, m_iTerm := 0, m_prevInput := 10 }

/-- The proportional-scenario controller with its sample interval set to zero. -/
def zeroInterval : PID :=
  { propStep with m_sampleTime := 0 }

/-- State after a sequence of public operations none of which divides by zero;
the fault of the first one that does otherwise. -/
def runOps (w : Nat) : List Op → PID → Except Fault PID
  | [], s => Except.ok s
  | op :: ops, s =>
    match op.run w s with
    | Except.error e => Except.error e
    | Except.ok t => runOps w ops t

/-- The controller `PID(input, output, setpoint, 200, 0, 0)` built over
`staleMem` at clock value 1000 when the bound output holds 1000, a value set by
hand outside the default output range. -/
def manualController : PID :=
  { freshController with m_output := 1000 }

/-- The memory of an object with static storage duration before its
constructor runs: every member is zero. -/
def zeroMem : PID :=
  { m_isEnabled := false, m_dispP := 0, m_dispI := 0, m_dispD := 0,
    m_p := 0, m_i := 0, m_d := 0,
    m_inMin := 0, m_inMax := 0, m_outMin := 0, m_outMax := 0,
    m_input := 0, m_output := 0, m_setpoint := 0,
    m_sampleTime := 0, m_prevTime := 0, m_prevInput := 0, m_iTerm := 0 }

/-- A controller with display gains `(2, 2, 3)` normalised to its sample
interval of 100 ms: internal gains `2`, `1/5` and `30`. -/
def rescaleStart : PID :=
  { propStep with m_dispI := 2, m_dispD := 3, m_i := 1 / 5, m_d := 30 }

/-- What `PID(input, output, setpoint, 1, 2, 3)` leaves over `staleMem` at clock
value 1000, with input 10, output 0 and setpoint 15. -/
def staleTuned : PID :=
  { freshController with m_dispP := 1, m_dispI := 2, m_dispD := 3,
                         m_p := 1, m_i := 1 / 2, m_d := 12 }

/-- What `PID(input, output, setpoint, 1, 2, 3)` leaves over `zeroMem` at clock
value 1000, with input 10, output 0 and setpoint 15; `m_d` has no value. -/
def zeroTuned : PID :=
  { zeroMem with m_dispP := 1, m_dispI := 2, m_dispD := 3, m_p := 1, m_i := 0,
                 m_input := 10, m_setpoint := 15, m_outMax := 255,
                 m_sampleTime := 100, m_prevTime := 900 }

/-- Successive `Compute` calls, one at each clock value of the list, with
nothing written to the object in between; `none` as soon as one of them
returns `false`. -/
def computeAll (w : Nat) : List Nat → PID → Option PID
  | [], s => some s
  | now :: rest, s =>
    if (Compute w now s).1 then computeAll w rest (Compute w now s).2 else none

/-- Controller of the integral accumulation scenario: integral gain 1 at a
sample interval of 1000 ms, error 1, output limits `[0, 10]`. -/
def integralStart : PID :=
  { m_isEnabled := true, m_dispP := 0, m_dispI := 1, m_dispD := 0,
    m_p := 0, m_i := 1, m_d := 0,
    m_inMin := 0, m_inMax := 1023, m_outMin := 0, m_outMax := 10,
    m_input := 0, m_output := 0, m_setpoint := 1,
    m_sampleTime := 1000, m_prevTime := 0, m_prevInput := 0, m_iTerm := 0 }

/-- A disabled controller at rest: output 40 within `[0, 100]`, input 10 within
`[0, 1023]`, setpoint equal to the input, some gains, stale integral state. -/
def steadyManual : PID :=
  { m_isEnabled := false, m_dispP := 2, m_dispI := 2, m_dispD := 3,
    m_p := 2, m_i := 1 / 5, m_d := 30,
    m_inMin := 0, m_inMax := 1023, m_outMin := 0, m_outMax := 100,
    m_input := 10, m_output := 40, m_setpoint := 10,
    m_sampleTime := 100, m_prevTime := 0, m_prevInput := 700, m_iTerm := 99 }

/-- An enabled controller with derivative gain only, whose input moved from 7 to 10. -/
def derivativeOnly : PID :=
  { propStep with m_dispP := 0, m_p := 0, m_dispD := 1, m_d := 10, m_prevInput := 7,
                  m_iTerm := 50 }

/-! ## The controller over rationals and NaN

After a division by zero the source carries on with a member that holds no
number.  The definitions below repeat, for the functions such a history runs
through, the embedding above over values that are a rational number or NaN.
NaN is what `0 / 0` yields; it passes through every arithmetic operation and
makes every comparison false.  A quotient `x / 0` with `x ≠ 0` is an infinity,
which these values do not include. -/

/-- A `double` that is a rational number or NaN (`none`). -/
abbrev Dbl := Option ℚ

/-- Addition of two `double` values, NaN if either is. -/
def Dbl.add : Dbl → Dbl → Dbl
  | some x, some y => some (x + y)
  | _, _ => none

/-- Subtraction of two `double` values, NaN if either is. -/
def Dbl.sub : Dbl → Dbl → Dbl
  | some x, some y => some (x - y)
  | _, _ => none

/-- Multiplication of two `double` values, NaN if either is. -/
def Dbl.mul : Dbl → Dbl → Dbl
  | some x, some y => some (x * y)
  | _, _ => none

/-- Division of two `double` values: NaN if either is NaN and for `0 / 0`; no
result (`none`) for `x / 0` with `x ≠ 0`, which is an infinity. -/
def Dbl.div : Dbl → Dbl → Option Dbl
  | some x, some y => if y = 0 then (if x = 0 then some none else none) else some (some (x / y))
  | _, _ => some none

/-- The comparison `a > b`, false if either value is NaN. -/
def Dbl.gt : Dbl → Dbl → Bool
  | some x, some y => decide (x > y)
  | _, _ => false

/-- The comparison `a < b`, false if either value is NaN. -/
def Dbl.lt : Dbl → Dbl → Bool
  | some x, some y => decide (x < y)
  | _, _ => false

/-- The comparison `a ≤ b`, false if either value is NaN. -/
def Dbl.le : Dbl → Dbl → Bool
  | some x, some y => decide (x ≤ y)
  | _, _ => false

/-- Data members of `class PID` (`PID.h` lines 27-49) when a `double` may be NaN. -/
structure PIDNaN where
  m_isEnabled : Bool
  m_dispP : Dbl
  m_dispI : Dbl
  m_dispD : Dbl
  m_p : Dbl
  m_i : Dbl
  m_d : Dbl
  m_inMin : Dbl
  m_inMax : Dbl
  m_outMin : Dbl
  m_outMax : Dbl
  m_input : Dbl
  m_output : Dbl
  m_setpoint : Dbl
  m_sampleTime : Nat
  m_prevTime : Nat
  m_prevInput : Dbl
  m_iTerm : Dbl
deriving DecidableEq, Repr

/-- An object all of whose members hold numbers, read as a `PIDNaN`. -/
def ofPID (s : PID) : PIDNaN :=
  { m_isEnabled := s.m_isEnabled,
    m_dispP := some s.m_dispP, m_dispI := some s.m_dispI, m_dispD := some s.m_dispD,
    m_p := some s.m_p, m_i := some s.m_i, m_d := some s.m_d,
    m_inMin := some s.m_inMin, m_inMax := some s.m_inMax,
    m_outMin := some s.m_outMin, m_outMax := some s.m_outMax,
    m_input := some s.m_input, m_output := some s.m_output, m_setpoint := some s.m_setpoint,
    m_sampleTime := s.m_sampleTime, m_prevTime := s.m_prevTime,
    m_prevInput := some s.m_prevInput, m_iTerm := some s.m_iTerm }

/-- `PID::Clamp` (`PID.cpp` lines 191-198) on values that may be NaN: both
comparisons are false for a NaN `val`, which is returned as it is. -/
def ClampN (val min max : Dbl) : Dbl :=
  if Dbl.gt val max then max
  else if Dbl.lt val min then min
  else val

/-- `PID::Initialize` (`PID.cpp` lines 184-189) on values that may be NaN. -/
def InitializeN (s : PIDNaN) : PIDNaN :=
  let s1 := { s with m_iTerm := s.m_output }
  let s2 := { s1 with m_prevInput := s1.m_input }
  { s2 with m_iTerm := ClampN s2.m_iTerm s2.m_outMin s2.m_outMax }

/-- `PID::Enable` (`PID.cpp` lines 73-79) on values that may be NaN. -/
def EnableN (s : PIDNaN) : PIDNaN :=
  if !s.m_isEnabled then
    InitializeN { s with m_isEnabled := true }
  else s

/-- `PID::Disable` (`PID.cpp` lines 81-84) on values that may be NaN. -/
def DisableN (s : PIDNaN) : PIDNaN :=
  { s with m_isEnabled := false }

/-- `PID::SetSampleTime` (`PID.cpp` lines 139-145) on values that may be NaN;
`none` when one of the two divisions yields an infinity. -/
def SetSampleTimeN (val : Nat) (s : PIDNaN) : Option PIDNaN :=
  match Dbl.div (some (val : ℚ)) (some (s.m_sampleTime : ℚ)) with
  | none => none
  | some ratio =>
    let s1 := { s with m_i := Dbl.mul s.m_i ratio }
    match Dbl.div s1.m_d ratio with
    | none => none
    | some q => some { s1 with m_d := q, m_sampleTime := val }

/-- `PID::Compute` (`PID.cpp` lines 39-66) on values that may be NaN. -/
def ComputeN (w now : Nat) (s : PIDNaN) : Bool × PIDNaN :=
  if !s.m_isEnabled then (false, s)
  else if wsub w now s.m_prevTime ≥ s.m_sampleTime then
    let s1 := { s with m_input := ClampN s.m_input s.m_inMin s.m_inMax }
    let error := Dbl.sub s1.m_setpoint s1.m_input
    let s2 := { s1 with m_iTerm := Dbl.add s1.m_iTerm (Dbl.mul s1.m_i error) }
    let s3 := { s2 with m_iTerm := ClampN s2.m_iTerm s2.m_outMin s2.m_outMax }
    let output := Dbl.sub (Dbl.add (Dbl.mul s3.m_p error) s3.m_iTerm)
      (Dbl.mul s3.m_d (Dbl.sub s3.m_input s3.m_prevInput))
    let output := ClampN output s3.m_outMin s3.m_outMax
    let s4 := { s3 with m_output := output }
    let s5 := { s4 with m_prevInput := s4.m_input }
    (true, { s5 with m_prevTime := now })
  else (false, s)

/-- `freshController` after `SetSampleTime(0)`: the interval is 0, the internal
integral gain is `0 * 0 = 0` and the internal derivative gain is `0 / 0`, NaN. -/
def zeroedInterval : PIDNaN :=
  { ofPID freshController with m_d := none, m_sampleTime := 0 }

/-- `zeroedInterval` after `Enable()` and a `Compute` at clock value 1000, which
runs: the input is clamped to 4, the bound output is NaN. -/
def nanOutput : PIDNaN :=
  { zeroedInterval with m_isEnabled := true, m_input := some 4, m_output := none,
                        m_prevInput := some 4, m_prevTime := 1000, m_iTerm := some 0 }

/-- `nanOutput` after `Disable()` and `Enable()`: the integral term is seeded
with the NaN output. -/
def nanIntegral : PIDNaN :=
  { nanOutput with m_iTerm := none }

/-! ## Auxiliary facts -/

/-- The wrapping subtraction is subtraction modulo `2 ^ w`. -/
theorem wsub_eq_emod (w a b : Nat) :
    (wsub w a b : Int) = ((a : Int) - (b : Int)) % (2 : Int) ^ w := by
  unfold wsub
  have hpos : 0 < 2 ^ w := Nat.two_pow_pos w
  have hb : b % 2 ^ w < 2 ^ w := Nat.mod_lt _ hpos
  push_cast [Nat.cast_sub hb.le]
  have : ((a : Int) % 2 ^ w + (2 ^ w - (b : Int) % 2 ^ w))
      = ((a : Int) - b) + (2 : Int) ^ w * (1 + b / 2 ^ w - a / 2 ^ w) := by
    have h1 := Int.emod_add_ediv (a : Int) (2 ^ w)
    have h2 := Int.emod_add_ediv (b : Int) (2 ^ w)
    linear_combination h1 - h2
  rw [this, Int.add_mul_emod_self_left]

/-- The sampling gate of `Compute`, read as a comparison of integers. -/
theorem gate_iff (w now prev st : Nat) :
    wsub w now prev ≥ st ↔ ((now : Int) - (prev : Int)) % (2 : Int) ^ w ≥ (st : Int) := by
  rw [← wsub_eq_emod]
  exact Int.ofNat_le.symm

/-- With both clock readings in range and a true elapsed time below `2 ^ w`,
the wrapping subtraction recovers the elapsed time, rollover or not. -/
theorem wsub_elapsed (w t e : Nat) (ht : t < 2 ^ w) (he : e < 2 ^ w) :
    wsub w ((t + e) % 2 ^ w) t = e := by
  unfold wsub
  rw [Nat.mod_mod, Nat.mod_eq_of_lt ht, Nat.mod_add_mod]
  have : t + e + (2 ^ w - t) = e + 2 ^ w := by omega
  rw [this, Nat.add_mod_right, Nat.mod_eq_of_lt he]

/-- When the controller is enabled and the gate is open, `Compute` is the reference step. -/
theorem Compute_open (w now : Nat) (s : PID) (hen : s.m_isEnabled = true)
    (hgate : wsub w now s.m_prevTime ≥ s.m_sampleTime) :
    Compute w now s = (true, referenceStep now s) := by
  simp [Compute, referenceStep, hen, hgate]

/-- When the controller is disabled or the gate is closed, `Compute` does nothing. -/
theorem Compute_closed (w now : Nat) (s : PID)
    (h : s.m_isEnabled = false ∨ wsub w now s.m_prevTime < s.m_sampleTime) :
    Compute w now s = (false, s) := by
  unfold Compute
  rcases h with h | h
  · simp [h]
  · have : ¬ wsub w now s.m_prevTime ≥ s.m_sampleTime := Nat.not_le.mpr h
    simp [this]

/-- The Boolean result of `Compute` says exactly whether the gate was passed. -/
theorem Compute_fst_iff (w now : Nat) (s : PID) :
    (Compute w now s).1 = true ↔
      s.m_isEnabled = true ∧ wsub w now s.m_prevTime ≥ s.m_sampleTime := by
  by_cases hen : s.m_isEnabled = true
  · by_cases hg : wsub w now s.m_prevTime ≥ s.m_sampleTime
    · simp [Compute_open w now s hen hg, hen, hg]
    · have hlt : wsub w now s.m_prevTime < s.m_sampleTime := Nat.not_le.mp hg
      simp [Compute_closed w now s (Or.inr hlt), hen, hlt]
  · have hf : s.m_isEnabled = false := by simpa using hen
    simp [Compute_closed w now s (Or.inl hf), hf]

/-- Construction over `staleMem` yields `freshController`. -/
theorem Construct_staleMem :
    Construct 32 1000 staleMem 10 0 15 200 0 0 = Except.ok freshController := by
  norm_num [Construct, SetOutputLimits, SetTunings, fdiv, staleMem, freshController, wsub]

/-! ## The control-loop step -/

/-- C1: for every enabled state and every clock value `now` whose elapsed time
`(now - m_prevTime) mod 2 ^ w` is at least the sample interval, `Compute`
returns `true` and the state after the call is the reference step: the input is
clamped into the input limits, the integral term is accumulated and clamped into
the output limits, the output is the clamped sum of the three terms, the
previous input and previous time are refreshed, and nothing else changes. -/
theorem Compute_eq_referenceStep (w now : Nat) (s : PID)
    (hen : s.m_isEnabled = true)
    (hgate : ((now : Int) - (s.m_prevTime : Int)) % (2 : Int) ^ w ≥ (s.m_sampleTime : Int)) :
    Compute w now s = (true, referenceStep now s) :=
  Compute_open w now s hen ((gate_iff w now s.m_prevTime s.m_sampleTime).mpr hgate)

/-- C1, pure proportional scenario: gain 2, input 10, setpoint 15 and output
limits `[0, 100]` give output 10 on the first iteration. -/
theorem Compute_eq_referenceStep_witness :
    propStep.m_isEnabled = true ∧
    ((100 : Int) - (propStep.m_prevTime : Int)) % (2 : Int) ^ 32
        ≥ (propStep.m_sampleTime : Int) ∧
    Compute 32 100 propStep = (true, referenceStep 100 propStep) ∧
    (referenceStep 100 propStep).m_output = 10 :=
  ⟨rfl, by decide, Compute_eq_referenceStep 32 100 propStep rfl (by decide),
    by norm_num [referenceStep, propStep, Clamp]⟩

/-- C4: when the controller is disabled, or enabled with an elapsed time
`(now - m_prevTime) mod 2 ^ w` below the sample interval, `Compute` returns
`false` and the whole state is the one before the call. -/
theorem Compute_noop (w now : Nat) (s : PID)
    (h : s.m_isEnabled = false ∨
      (s.m_isEnabled = true ∧
        ((now : Int) - (s.m_prevTime : Int)) % (2 : Int) ^ w < (s.m_sampleTime : Int))) :
    Compute w now s = (false, s) := by
  apply Compute_closed
  rcases h with h | ⟨_, h⟩
  · exact Or.inl h
  · right
    have := (gate_iff w now s.m_prevTime s.m_sampleTime).not.mpr (not_le.mpr h)
    exact Nat.not_le.mp this

/-- C4 at the proportional scenario, 50 ms after the previous iteration. -/
theorem Compute_noop_witness :
    (propStep.m_isEnabled = false ∨
      (propStep.m_isEnabled = true ∧
        ((50 : Int) - (propStep.m_prevTime : Int)) % (2 : Int) ^ 32
          < (propStep.m_sampleTime : Int))) ∧
    Compute 32 50 propStep = (false, propStep) :=
  ⟨Or.inr ⟨rfl, by decide⟩, Compute_noop 32 50 propStep (Or.inr ⟨rfl, by decide⟩)⟩

/-- C5: after a `Compute` that returned `true` at clock value `t`, a following
`Compute` at clock value `t'` returns `true` exactly when
`(t' - t) mod 2 ^ w` is at least the sample interval; and when both readings
are `w`-bit values and `t'` is `t` advanced by a true elapsed time `e < 2 ^ w`
(wrapping or not), exactly when `e` is at least the sample interval. -/
theorem Compute_gate_spacing (w t t' : Nat) (s : PID)
    (h : (Compute w t s).1 = true) :
    ((Compute w t' (Compute w t s).2).1 = true ↔
      ((t' : Int) - (t : Int)) % (2 : Int) ^ w ≥ (s.m_sampleTime : Int)) ∧
    (∀ e : Nat, t < 2 ^ w → e < 2 ^ w → t' = (t + e) % 2 ^ w →
      ((Compute w t' (Compute w t s).2).1 = true ↔ e ≥ s.m_sampleTime)) := by
  obtain ⟨hen, hg⟩ := (Compute_fst_iff w t s).mp h
  have hstep : (Compute w t s).2 = referenceStep t s := by
    rw [Compute_open w t s hen hg]
  have hiff : (Compute w t' (Compute w t s).2).1 = true ↔ wsub w t' t ≥ s.m_sampleTime := by
    rw [Compute_fst_iff, hstep]
    simp [referenceStep, hen]
  refine ⟨hiff.trans (gate_iff w t' t s.m_sampleTime), ?_⟩
  intro e ht he ht'
  rw [hiff, ht', wsub_elapsed w t e ht he]

/-- C5 across a rollover of a 32-bit counter: an iteration at `2 ^ 32 - 40`,
then a call at clock value 60, one hundred milliseconds later, which runs. -/
theorem Compute_gate_spacing_witness :
    (Compute 32 (2 ^ 32 - 40) propStep).1 = true ∧
    (((Compute 32 60 (Compute 32 (2 ^ 32 - 40) propStep).2).1 = true ↔
      ((60 : Int) - ((2 ^ 32 - 40 : Nat) : Int)) % (2 : Int) ^ 32
        ≥ (propStep.m_sampleTime : Int)) ∧
    (∀ e : Nat, 2 ^ 32 - 40 < 2 ^ 32 → e < 2 ^ 32 → 60 = (2 ^ 32 - 40 + e) % 2 ^ 32 →
      ((Compute 32 60 (Compute 32 (2 ^ 32 - 40) propStep).2).1 = true ↔
        e ≥ propStep.m_sampleTime))) ∧
    (Compute 32 60 (Compute 32 (2 ^ 32 - 40) propStep).2).1 = true :=
  ⟨by simp [Compute_fst_iff, propStep, wsub],
    Compute_gate_spacing 32 (2 ^ 32 - 40) 60 propStep
      (by simp [Compute_fst_iff, propStep, wsub]),
    by simp [Compute, propStep, wsub]⟩

/-! ## Range invariants -/

/-- `Clamp` lands between its bounds when they are ordered. -/
theorem Clamp_mem (val min max : ℚ) (h : min ≤ max) :
    min ≤ Clamp val min max ∧ Clamp val min max ≤ max := by
  unfold Clamp
  split_ifs with h1 h2
  · exact ⟨h, le_refl _⟩
  · exact ⟨le_refl _, h⟩
  · exact ⟨not_lt.mp h2, not_lt.mp h1⟩

/-- With ordered bounds `Clamp` is the usual projection onto the interval. -/
theorem Clamp_eq_max_min (val min max : ℚ) (h : min ≤ max) :
    Clamp val min max = Max.max min (Min.min val max) := by
  unfold Clamp
  split_ifs with h1 h2
  · rw [min_eq_right h1.le, max_eq_right h]
  · rw [min_eq_left (not_lt.mp h1), max_eq_left h2.le]
  · rw [min_eq_left (not_lt.mp h1), max_eq_right (not_lt.mp h2)]

/-- `SetTunings` with a negative argument returns at once. -/
theorem SetTunings_reject (p i d : ℚ) (s : PID) (h : p < 0 ∨ i < 0 ∨ d < 0) :
    SetTunings p i d s = Except.ok s := by
  simp only [SetTunings, if_pos h]

/-- `SetTunings` with non-negative arguments and a non-zero sample interval. -/
theorem SetTunings_accept (p i d : ℚ) (s : PID) (h : ¬ (p < 0 ∨ i < 0 ∨ d < 0))
    (hS : s.m_sampleTime ≠ 0) :
    SetTunings p i d s = Except.ok
      { s with m_dispP := p, m_dispI := i, m_dispD := d, m_p := p,
               m_i := i * ((s.m_sampleTime : ℚ) / 1000),
               m_d := d / ((s.m_sampleTime : ℚ) / 1000) } := by
  have hz : ¬ ((s.m_sampleTime : ℚ) / 1000 = 0) := by
    have : (s.m_sampleTime : ℚ) ≠ 0 := Nat.cast_ne_zero.mpr hS
    exact div_ne_zero this (by norm_num)
  simp only [SetTunings, if_neg h, fdiv, if_neg hz]

/-- `SetTunings` with non-negative arguments and a zero sample interval divides
by zero, after it has written the display gains, `m_p` and `m_i`. -/
theorem SetTunings_fault (p i d : ℚ) (s : PID) (h : ¬ (p < 0 ∨ i < 0 ∨ d < 0))
    (hS : s.m_sampleTime = 0) :
    SetTunings p i d s = Except.error (Fault.divByZero
      { s with m_dispP := p, m_dispI := i, m_dispD := d, m_p := p,
               m_i := i * ((s.m_sampleTime : ℚ) / 1000) }) := by
  have hz : (s.m_sampleTime : ℚ) / 1000 = 0 := by simp [hS]
  simp only [SetTunings, if_neg h, fdiv, if_pos hz]

/-- `SetTunings` writes gains only. -/
theorem SetTunings_frame (p i d : ℚ) (s t : PID) (h : SetTunings p i d s = Except.ok t) :
    t.m_isEnabled = s.m_isEnabled ∧ t.m_outMin = s.m_outMin ∧ t.m_outMax = s.m_outMax ∧
      t.m_iTerm = s.m_iTerm := by
  by_cases hneg : p < 0 ∨ i < 0 ∨ d < 0
  · rw [SetTunings_reject p i d s hneg] at h
    cases h
    exact ⟨rfl, rfl, rfl, rfl⟩
  · by_cases hS : s.m_sampleTime = 0
    · rw [SetTunings_fault p i d s hneg hS] at h
      cases h
    · rw [SetTunings_accept p i d s hneg hS] at h
      cases h
      exact ⟨rfl, rfl, rfl, rfl⟩

/-- `SetSampleTime` with a non-zero old and a non-zero new interval. -/
theorem SetSampleTime_accept (val : Nat) (s : PID) (hS : s.m_sampleTime ≠ 0) (hv : val ≠ 0) :
    SetSampleTime val s = Except.ok
      { s with m_i := s.m_i * ((val : ℚ) / (s.m_sampleTime : ℚ)),
               m_d := s.m_d / ((val : ℚ) / (s.m_sampleTime : ℚ)),
               m_sampleTime := val } := by
  have h1 : ¬ ((s.m_sampleTime : ℚ) = 0) := Nat.cast_ne_zero.mpr hS
  have h2 : ¬ ((val : ℚ) / (s.m_sampleTime : ℚ) = 0) :=
    div_ne_zero (Nat.cast_ne_zero.mpr hv) h1
  simp only [SetSampleTime, fdiv, if_neg h1, if_neg h2]

/-- `SetSampleTime` on a zero old interval: `ratio` has no value, `val` is stored. -/
theorem SetSampleTime_fault_old (val : Nat) (s : PID) (hS : s.m_sampleTime = 0) :
    SetSampleTime val s = Except.error (Fault.divByZero { s with m_sampleTime := val }) := by
  have h1 : (s.m_sampleTime : ℚ) = 0 := by simp [hS]
  simp only [SetSampleTime, fdiv, if_pos h1]

/-- `SetSampleTime(0)` on a non-zero old interval: `ratio` is zero, `m_i` becomes
zero, the division of `m_d` faults, zero is stored. -/
theorem SetSampleTime_fault_zero (s : PID) (hS : s.m_sampleTime ≠ 0) :
    SetSampleTime 0 s = Except.error (Fault.divByZero
      { s with m_i := 0, m_sampleTime := 0 }) := by
  have h1 : ¬ ((s.m_sampleTime : ℚ) = 0) := Nat.cast_ne_zero.mpr hS
  have h2 : ((0 : Nat) : ℚ) / (s.m_sampleTime : ℚ) = 0 := by simp
  simp only [SetSampleTime, fdiv, if_neg h1, h2, mul_zero, if_true]

/-- `SetSampleTime` divides by zero when the old or the new interval is zero. -/
theorem SetSampleTime_fault (val : Nat) (s : PID) (h : s.m_sampleTime = 0 ∨ val = 0) :
    ∃ t : PID, SetSampleTime val s = Except.error (Fault.divByZero t) := by
  by_cases hS : s.m_sampleTime = 0
  · exact ⟨_, SetSampleTime_fault_old val s hS⟩
  · have hv : val = 0 := h.resolve_left hS
    subst hv
    exact ⟨_, SetSampleTime_fault_zero s hS⟩

/-- `SetSampleTime` writes the two scaled gains and the interval only. -/
theorem SetSampleTime_frame (val : Nat) (s t : PID) (h : SetSampleTime val s = Except.ok t) :
    t.m_isEnabled = s.m_isEnabled ∧ t.m_outMin = s.m_outMin ∧ t.m_outMax = s.m_outMax ∧
      t.m_iTerm = s.m_iTerm := by
  by_cases hz : s.m_sampleTime = 0 ∨ val = 0
  · obtain ⟨u, hu⟩ := SetSampleTime_fault val s hz
    rw [hu] at h
    cases h
  · push_neg at hz
    rw [SetSampleTime_accept val s hz.1 hz.2] at h
    cases h
    exact ⟨rfl, rfl, rfl, rfl⟩

/-- `SetInputLimits` with `min ≥ max` returns at once. -/
theorem SetInputLimits_reject (min max : ℚ) (s : PID) (h : min ≥ max) :
    SetInputLimits min max s = s := by
  simp only [SetInputLimits, if_pos h]

/-- `SetOutputLimits` with `min ≥ max` returns at once. -/
theorem SetOutputLimits_reject (min max : ℚ) (s : PID) (h : min ≥ max) :
    SetOutputLimits min max s = s := by
  simp only [SetOutputLimits, if_pos h]

/-- `SetInputLimits` with `min < max` on an enabled controller. -/
theorem SetInputLimits_enabled (min max : ℚ) (s : PID) (h : min < max)
    (hen : s.m_isEnabled = true) :
    SetInputLimits min max s =
      { s with m_inMin := min, m_inMax := max, m_input := Clamp s.m_input min max } := by
  simp only [SetInputLimits, if_neg (not_le.mpr h), hen, if_true]

/-- `SetInputLimits` with `min < max` on a disabled controller. -/
theorem SetInputLimits_disabled (min max : ℚ) (s : PID) (h : min < max)
    (hen : s.m_isEnabled = false) :
    SetInputLimits min max s = { s with m_inMin := min, m_inMax := max } := by
  simp [SetInputLimits, not_le.mpr h, hen]

/-- `SetOutputLimits` with `min < max` on an enabled controller. -/
theorem SetOutputLimits_enabled (min max : ℚ) (s : PID) (h : min < max)
    (hen : s.m_isEnabled = true) :
    SetOutputLimits min max s =
      { s with m_outMin := min, m_outMax := max, m_output := Clamp s.m_output min max,
               m_iTerm := Clamp s.m_iTerm min max } := by
  simp only [SetOutputLimits, if_neg (not_le.mpr h), hen, if_true]

/-- `SetOutputLimits` with `min < max` on a disabled controller. -/
theorem SetOutputLimits_disabled (min max : ℚ) (s : PID) (h : min < max)
    (hen : s.m_isEnabled = false) :
    SetOutputLimits min max s = { s with m_outMin := min, m_outMax := max } := by
  simp [SetOutputLimits, not_le.mpr h, hen]

/-- `Enable` on a disabled controller seeds the integral term and the previous input. -/
theorem Enable_disabled (s : PID) (hen : s.m_isEnabled = false) :
    Enable s = { s with m_isEnabled := true,
                        m_iTerm := Clamp s.m_output s.m_outMin s.m_outMax,
                        m_prevInput := s.m_input } := by
  simp [Enable, IsEnabled, Initialize, hen]

/-- `Enable` on an enabled controller does nothing. -/
theorem Enable_enabled (s : PID) (hen : s.m_isEnabled = true) : Enable s = s := by
  simp [Enable, IsEnabled, hen]

/-- What a successful construction leaves in the members the invariant reads. -/
theorem Construct_frame (w millis : Nat) (mem : PID) (input output setpoint p i d : ℚ) (s : PID)
    (h : Construct w millis mem input output setpoint p i d = Except.ok s) :
    s.m_isEnabled = false ∧ s.m_outMin = 0 ∧ s.m_outMax = 255 ∧ s.m_sampleTime = 100 ∧
      s.m_prevTime = wsub w millis 100 := by
  simp only [Construct] at h
  generalize hq : SetTunings p i d _ = q at h
  cases q with
  | error e => cases h
  | ok s2 =>
    obtain ⟨he, hmin, hmax, _⟩ := SetTunings_frame _ _ _ _ _ hq
    cases h
    refine ⟨?_, ?_, ?_, rfl, rfl⟩
    · rw [he, SetOutputLimits_disabled 0 255 _ (by norm_num) rfl]
    · rw [hmin, SetOutputLimits_disabled 0 255 _ (by norm_num) rfl]
    · rw [hmax, SetOutputLimits_disabled 0 255 _ (by norm_num) rfl]

/-- Construction establishes the invariant. -/
theorem Construct_inv (w millis : Nat) (mem : PID) (input output setpoint p i d : ℚ) (s : PID)
    (h : Construct w millis mem input output setpoint p i d = Except.ok s) : OutputInv s := by
  obtain ⟨he, hmin, hmax, _, _⟩ := Construct_frame w millis mem input output setpoint p i d s h
  refine ⟨by rw [hmin, hmax]; norm_num, fun h1 => ?_⟩
  rw [he] at h1
  cases h1

/-- `Compute` either is the reference step or changes nothing. -/
theorem Compute_cases (w now : Nat) (s : PID) :
    (s.m_isEnabled = true ∧ Compute w now s = (true, referenceStep now s)) ∨
      Compute w now s = (false, s) := by
  by_cases hen : s.m_isEnabled = true
  · by_cases hg : wsub w now s.m_prevTime ≥ s.m_sampleTime
    · exact Or.inl ⟨hen, Compute_open w now s hen hg⟩
    · exact Or.inr (Compute_closed w now s (Or.inr (Nat.not_le.mp hg)))
  · exact Or.inr (Compute_closed w now s (Or.inl (by simpa using hen)))

/-- Every public operation keeps the invariant. -/
theorem run_inv (w : Nat) (s t : PID) (op : Op) (hs : OutputInv s)
    (h : op.run w s = Except.ok t) : OutputInv t := by
  obtain ⟨hlt, hi⟩ := hs
  cases op with
  | setTunings p i d =>
    obtain ⟨he, hmin, hmax, hit⟩ := SetTunings_frame _ _ _ _ _ h
    simpa only [OutputInv, he, hmin, hmax, hit] using And.intro hlt hi
  | setSampleTime val =>
    obtain ⟨he, hmin, hmax, hit⟩ := SetSampleTime_frame _ _ _ h
    simpa only [OutputInv, he, hmin, hmax, hit] using And.intro hlt hi
  | setInputLimits min max =>
    cases h
    by_cases hm : min ≥ max
    · rw [SetInputLimits_reject min max s hm]
      exact ⟨hlt, hi⟩
    · cases hen : s.m_isEnabled
      · rw [SetInputLimits_disabled min max s (not_le.mp hm) hen]
        exact ⟨hlt, fun h3 => absurd (hen.symm.trans h3) (by decide)⟩
      · rw [SetInputLimits_enabled min max s (not_le.mp hm) hen]
        exact ⟨hlt, fun _ => hi hen⟩
  | setOutputLimits min max =>
    cases h
    by_cases hm : min ≥ max
    · rw [SetOutputLimits_reject min max s hm]
      exact ⟨hlt, hi⟩
    · cases hen : s.m_isEnabled
      · rw [SetOutputLimits_disabled min max s (not_le.mp hm) hen]
        exact ⟨not_le.mp hm, fun h3 => absurd (hen.symm.trans h3) (by decide)⟩
      · rw [SetOutputLimits_enabled min max s (not_le.mp hm) hen]
        exact ⟨not_le.mp hm, fun _ => Clamp_mem _ _ _ (not_le.mp hm).le⟩
  | enable =>
    cases h
    cases hen : s.m_isEnabled
    · rw [Enable_disabled s hen]
      exact ⟨hlt, fun _ => Clamp_mem _ _ _ hlt.le⟩
    · rw [Enable_enabled s hen]
      exact ⟨hlt, hi⟩
  | disable =>
    cases h
    exact ⟨hlt, fun h3 => by simp [Disable] at h3⟩
  | compute now =>
    cases h
    rcases Compute_cases w now s with ⟨_, hc⟩ | hc
    · rw [hc]
      exact ⟨hlt, fun _ => Clamp_mem _ _ _ hlt.le⟩
    · rw [hc]
      exact ⟨hlt, hi⟩

/-- The invariant holds in every reachable state. -/
theorem Reachable_inv (w : Nat) (s : PID) (h : Reachable w s) : OutputInv s := by
  induction h with
  | construct millis mem input output setpoint p i d s h =>
    exact Construct_inv w millis mem input output setpoint p i d s h
  | step s t op _ h ih => exact run_inv w s t op ih h

/-- `enabledController` is reachable: construction, then `Enable()`. -/
theorem Reachable_enabledController : Reachable 32 enabledController :=
  Reachable.step freshController enabledController Op.enable
    (Reachable.construct 1000 staleMem 10 0 15 200 0 0 freshController Construct_staleMem)
    (by norm_num [Op.run, Enable, IsEnabled, Initialize, Clamp, freshController,
      enabledController])

/-! ## Histories through a division by zero -/

/-- On numbers `ClampN` is `Clamp`. -/
theorem ClampN_some (val min max : ℚ) :
    ClampN (some val) (some min) (some max) = some (Clamp val min max) := by
  unfold ClampN Clamp Dbl.gt Dbl.lt
  by_cases h1 : val > max
  · simp [h1]
  · by_cases h2 : val < min
    · simp [h1, h2]
    · simp [h1, h2]

/-- `ClampN` returns a NaN value as it is. -/
theorem ClampN_none (min max : Dbl) : ClampN none min max = none := by
  simp [ClampN, Dbl.gt, Dbl.lt]

/-- On an object whose members all hold numbers `EnableN` is `Enable`. -/
theorem EnableN_ofPID (s : PID) : EnableN (ofPID s) = ofPID (Enable s) := by
  cases hen : s.m_isEnabled
  · rw [Enable_disabled s hen]
    simp [EnableN, InitializeN, ofPID, hen, ClampN_some]
  · rw [Enable_enabled s hen]
    simp [EnableN, ofPID, hen]

/-- On an object whose members all hold numbers `DisableN` is `Disable`. -/
theorem DisableN_ofPID (s : PID) : DisableN (ofPID s) = ofPID (Disable s) := rfl

/-- On an object whose members all hold numbers `ComputeN` is `Compute`. -/
theorem ComputeN_ofPID (w now : Nat) (s : PID) :
    ComputeN w now (ofPID s) = ((Compute w now s).1, ofPID (Compute w now s).2) := by
  rcases Compute_cases w now s with ⟨hen, hc⟩ | hc
  · have hg : wsub w now s.m_prevTime ≥ s.m_sampleTime := by
      have h1 : (Compute w now s).1 = true := by rw [hc]
      exact ((Compute_fst_iff w now s).mp h1).2
    rw [hc]
    simp [ComputeN, referenceStep, ofPID, hen, hg, ClampN_some, Dbl.add, Dbl.sub, Dbl.mul]
  · rw [hc]
    have h1 : ¬ ((Compute w now s).1 = true) := by rw [hc]; simp
    rw [Compute_fst_iff] at h1
    by_cases hen : s.m_isEnabled = true
    · have hg : ¬ (wsub w now s.m_prevTime ≥ s.m_sampleTime) := fun hg => h1 ⟨hen, hg⟩
      simp [ComputeN, ofPID, hen, hg]
    · have hf : s.m_isEnabled = false := by simpa using hen
      simp [ComputeN, ofPID, hf]

/-- Where `SetSampleTime` divides by no zero, `SetSampleTimeN` does the same. -/
theorem SetSampleTimeN_ofPID (val : Nat) (s : PID) (hS : s.m_sampleTime ≠ 0) (hv : val ≠ 0) :
    ∃ t : PID, SetSampleTime val s = Except.ok t ∧
      SetSampleTimeN val (ofPID s) = some (ofPID t) := by
  refine ⟨_, SetSampleTime_accept val s hS hv, ?_⟩
  have h1 : ¬ ((s.m_sampleTime : ℚ) = 0) := Nat.cast_ne_zero.mpr hS
  have h2 : ¬ ((val : ℚ) / (s.m_sampleTime : ℚ) = 0) :=
    div_ne_zero (Nat.cast_ne_zero.mpr hv) h1
  simp [SetSampleTimeN, Dbl.div, Dbl.mul, ofPID, h1, h2]

/-- `SetSampleTime(0)` on the freshly constructed controller leaves NaN in `m_d`. -/
theorem SetSampleTimeN_freshController :
    SetSampleTimeN 0 (ofPID freshController) = some zeroedInterval := by
  norm_num [SetSampleTimeN, Dbl.div, Dbl.mul, ofPID, freshController, zeroedInterval]

/-- `Enable()` and an iteration after `SetSampleTime(0)`: `Compute` returns
`true` and stores NaN in the bound output. -/
theorem ComputeN_zeroedInterval :
    ComputeN 32 1000 (EnableN zeroedInterval) = (true, nanOutput) := by
  norm_num [ComputeN, EnableN, InitializeN, ClampN, Dbl.gt, Dbl.lt, Dbl.add, Dbl.sub, Dbl.mul,
    wsub, zeroedInterval, nanOutput, ofPID, freshController]

/-- `Disable()` and `Enable()` after the NaN output: the integral term is NaN. -/
theorem EnableN_nanOutput : EnableN (DisableN nanOutput) = nanIntegral := by
  norm_num [EnableN, DisableN, InitializeN, ClampN, Dbl.gt, Dbl.lt, nanIntegral, nanOutput,
    zeroedInterval, ofPID, freshController]

/-- A public operation has a result inside the rational model exactly when it
divides by no zero. -/
theorem run_ok_iff (w : Nat) (s : PID) (op : Op) :
    (∃ t : PID, op.run w s = Except.ok t) ↔ ¬ op.dividesByZero s := by
  cases op with
  | setTunings p i d =>
    simp only [Op.run, Op.dividesByZero]
    by_cases hneg : p < 0 ∨ i < 0 ∨ d < 0
    · exact ⟨fun _ h => h.1 hneg, fun _ => ⟨_, SetTunings_reject p i d s hneg⟩⟩
    · by_cases hS : s.m_sampleTime = 0
      · rw [SetTunings_fault p i d s hneg hS]
        refine Iff.intro (fun h => ?_) (fun h => absurd ⟨hneg, hS⟩ h)
        obtain ⟨t, ht⟩ := h
        cases ht
      · exact ⟨fun _ h => hS h.2, fun _ => ⟨_, SetTunings_accept p i d s hneg hS⟩⟩
  | setSampleTime val =>
    simp only [Op.run, Op.dividesByZero]
    by_cases hz : s.m_sampleTime = 0 ∨ val = 0
    · obtain ⟨u, hu⟩ := SetSampleTime_fault val s hz
      rw [hu]
      refine Iff.intro (fun h => ?_) (fun h => absurd hz h)
      obtain ⟨t, ht⟩ := h
      cases ht
    · have hz' := hz
      push_neg at hz'
      exact ⟨fun _ => hz, fun _ => ⟨_, SetSampleTime_accept val s hz'.1 hz'.2⟩⟩
  | setInputLimits min max => exact ⟨fun _ h => h, fun _ => ⟨_, rfl⟩⟩
  | setOutputLimits min max => exact ⟨fun _ h => h, fun _ => ⟨_, rfl⟩⟩
  | enable => exact ⟨fun _ h => h, fun _ => ⟨_, rfl⟩⟩
  | disable => exact ⟨fun _ h => h, fun _ => ⟨_, rfl⟩⟩
  | compute now => exact ⟨fun _ h => h, fun _ => ⟨_, rfl⟩⟩

/-- The constructor has a result inside the rational model exactly when its
`SetTunings` call divides by no zero: a gain is negative, or the memory holds a
non-zero value where `m_sampleTime` lives. -/
theorem Construct_ok_iff (w millis : Nat) (mem : PID) (input output setpoint p i d : ℚ) :
    (∃ s : PID, Construct w millis mem input output setpoint p i d = Except.ok s) ↔
      ((p < 0 ∨ i < 0 ∨ d < 0) ∨ mem.m_sampleTime ≠ 0) := by
  have h0 : SetOutputLimits 0 255
      { mem with m_input := input, m_output := output, m_setpoint := setpoint,
                 m_isEnabled := false } =
      { mem with m_input := input, m_output := output, m_setpoint := setpoint,
                 m_isEnabled := false, m_outMin := 0, m_outMax := 255 } :=
    SetOutputLimits_disabled 0 255 _ (by norm_num) rfl
  simp only [Construct, h0]
  by_cases hneg : p < 0 ∨ i < 0 ∨ d < 0
  · have hq := SetTunings_reject p i d
      { mem with m_input := input, m_output := output, m_setpoint := setpoint,
                 m_isEnabled := false, m_outMin := 0, m_outMax := 255 } hneg
    rw [hq]
    exact Iff.intro (fun _ => Or.inl hneg) (fun _ => ⟨_, rfl⟩)
  · by_cases hS : mem.m_sampleTime = 0
    · have hq := SetTunings_fault p i d
        { mem with m_input := input, m_output := output, m_setpoint := setpoint,
                   m_isEnabled := false, m_outMin := 0, m_outMax := 255 } hneg hS
      rw [hq]
      refine Iff.intro (fun h => ?_)
        (fun h => h.elim (fun h => absurd h hneg) (fun h => absurd hS h))
      obtain ⟨t, ht⟩ := h
      cases ht
    · have hq := SetTunings_accept p i d
        { mem with m_input := input, m_output := output, m_setpoint := setpoint,
                   m_isEnabled := false, m_outMin := 0, m_outMax := 255 } hneg hS
      rw [hq]
      exact Iff.intro (fun _ => Or.inr hS) (fun _ => ⟨_, rfl⟩)

/-! ## Invariants of reachable states -/

/-- C2 as stated fails on a history through a division by zero.  The freshly
constructed controller is reachable and has derivative gain 0; `SetSampleTime(0)`
on it is the faulting call of the rational model and leaves `m_d = 0 / 0`, NaN;
after `Enable()`, `Compute` at clock value 1000 returns `true` and stores NaN
in the bound output, which is not between the output limits 0 and 255. -/
theorem Compute_output_NaN :
    Reachable 32 freshController ∧
    Op.dividesByZero freshController (Op.setSampleTime 0) ∧
    SetSampleTimeN 0 (ofPID freshController) = some zeroedInterval ∧
    ComputeN 32 1000 (EnableN zeroedInterval) = (true, nanOutput) ∧
    nanOutput.m_outMin = some 0 ∧ nanOutput.m_outMax = some 255 ∧
    nanOutput.m_output = none ∧
    ¬ (Dbl.le nanOutput.m_outMin nanOutput.m_output = true ∧
        Dbl.le nanOutput.m_output nanOutput.m_outMax = true) := by
  refine ⟨Reachable.construct 1000 staleMem 10 0 15 200 0 0 freshController
      Construct_staleMem, Or.inr rfl, SetSampleTimeN_freshController,
    ComputeN_zeroedInterval, rfl, rfl, rfl, ?_⟩
  simp [Dbl.le, nanOutput]

/-- C2, amended: in every state reached from construction through public
operations none of which divides by zero, whenever `Compute` returns `true`
the bound output afterwards lies between the output limits. -/
theorem Compute_output_in_limits (w now : Nat) (s : PID) (hs : Reachable w s)
    (hc : (Compute w now s).1 = true) :
    (Compute w now s).2.m_outMin ≤ (Compute w now s).2.m_output ∧
      (Compute w now s).2.m_output ≤ (Compute w now s).2.m_outMax := by
  obtain ⟨hlt, _⟩ := Reachable_inv w s hs
  obtain ⟨hen, hg⟩ := (Compute_fst_iff w now s).mp hc
  rw [Compute_open w now s hen hg]
  exact Clamp_mem _ s.m_outMin s.m_outMax hlt.le

/-- C2 on the freshly constructed and enabled controller: the stale input limits
turn the input 10 into 4, and gain 200 on the error 11 saturates at the upper
output limit 255. -/
theorem Compute_output_in_limits_witness :
    (Compute 32 1000 enabledController).1 = true ∧
    ((Compute 32 1000 enabledController).2.m_outMin
        ≤ (Compute 32 1000 enabledController).2.m_output ∧
      (Compute 32 1000 enabledController).2.m_output
        ≤ (Compute 32 1000 enabledController).2.m_outMax) ∧
    (Compute 32 1000 enabledController).2.m_output = 255 :=
  ⟨by simp [Compute_fst_iff, enabledController, freshController, wsub],
    Compute_output_in_limits 32 1000 enabledController Reachable_enabledController
      (by simp [Compute_fst_iff, enabledController, freshController, wsub]),
    by norm_num [Compute, enabledController, freshController, wsub, Clamp]⟩

/-- C3 as stated fails on a history through a division by zero.  After
`SetSampleTime(0)` on the freshly constructed controller, `Enable()` and a
`Compute` that stores NaN in the bound output, `Disable()` followed by
`Enable()` seeds the integral term with that output: the controller is enabled
and its integral term is NaN, not between the output limits 0 and 255. -/
theorem iTerm_NaN_while_enabled :
    Reachable 32 freshController ∧
    Op.dividesByZero freshController (Op.setSampleTime 0) ∧
    SetSampleTimeN 0 (ofPID freshController) = some zeroedInterval ∧
    ComputeN 32 1000 (EnableN zeroedInterval) = (true, nanOutput) ∧
    EnableN (DisableN nanOutput) = nanIntegral ∧
    nanIntegral.m_isEnabled = true ∧
    nanIntegral.m_outMin = some 0 ∧ nanIntegral.m_outMax = some 255 ∧
    nanIntegral.m_iTerm = none ∧
    ¬ (Dbl.le nanIntegral.m_outMin nanIntegral.m_iTerm = true ∧
        Dbl.le nanIntegral.m_iTerm nanIntegral.m_outMax = true) := by
  refine ⟨Reachable.construct 1000 staleMem 10 0 15 200 0 0 freshController
      Construct_staleMem, Or.inr rfl, SetSampleTimeN_freshController,
    ComputeN_zeroedInterval, EnableN_nanOutput, rfl, rfl, rfl, rfl, ?_⟩
  simp [Dbl.le, nanIntegral]

/-- C3, amended: in every state reached from construction through public
operations none of which divides by zero, if the controller is enabled the
integral term lies between the output limits; in particular it does after
every `Compute` that returned `true` and after every accepted
`SetOutputLimits` made while enabled. -/
theorem iTerm_in_limits (w : Nat) (s : PID) (hs : Reachable w s) :
    (s.m_isEnabled = true → s.m_outMin ≤ s.m_iTerm ∧ s.m_iTerm ≤ s.m_outMax) ∧
    (∀ now : Nat, (Compute w now s).1 = true →
      (Compute w now s).2.m_outMin ≤ (Compute w now s).2.m_iTerm ∧
        (Compute w now s).2.m_iTerm ≤ (Compute w now s).2.m_outMax) ∧
    (∀ min max : ℚ, min < max → s.m_isEnabled = true →
      (SetOutputLimits min max s).m_outMin ≤ (SetOutputLimits min max s).m_iTerm ∧
        (SetOutputLimits min max s).m_iTerm ≤ (SetOutputLimits min max s).m_outMax) := by
  refine ⟨(Reachable_inv w s hs).2, fun now hc => ?_, fun min max hm hen => ?_⟩
  · have ht : Reachable w (Compute w now s).2 :=
      Reachable.step s _ (Op.compute now) hs rfl
    have hen : (Compute w now s).2.m_isEnabled = true := by
      obtain ⟨hen, hg⟩ := (Compute_fst_iff w now s).mp hc
      rw [Compute_open w now s hen hg]
      exact hen
    exact (Reachable_inv w _ ht).2 hen
  · have ht : Reachable w (SetOutputLimits min max s) :=
      Reachable.step s _ (Op.setOutputLimits min max) hs rfl
    have hen2 : (SetOutputLimits min max s).m_isEnabled = true := by
      rw [SetOutputLimits_enabled min max s hm hen]
      exact hen
    exact (Reachable_inv w _ ht).2 hen2

/-- C3 on the freshly constructed and enabled controller, whose memory held an
integral term of 1000 before `Enable()`. -/
theorem iTerm_in_limits_witness :
    Reachable 32 enabledController ∧
    enabledController.m_isEnabled = true ∧
    enabledController.m_outMin ≤ enabledController.m_iTerm ∧
    enabledController.m_iTerm ≤ enabledController.m_outMax :=
  ⟨Reachable_enabledController, rfl,
    (iTerm_in_limits 32 enabledController Reachable_enabledController).1 rfl⟩

/-! ## Rejected configuration -/

/-- C6: `SetTunings` with a negative argument leaves the whole state, display
gains and internal gains included, as it was. -/
theorem SetTunings_rejection_atomic (p i d : ℚ) (s : PID) (h : p < 0 ∨ i < 0 ∨ d < 0) :
    SetTunings p i d s = Except.ok s :=
  SetTunings_reject p i d s h

/-- C6 with a negative derivative gain. -/
theorem SetTunings_rejection_atomic_witness :
    ((3 : ℚ) < 0 ∨ (4 : ℚ) < 0 ∨ (-1 : ℚ) < 0) ∧
    SetTunings 3 4 (-1) propStep = Except.ok propStep :=
  ⟨by norm_num, SetTunings_rejection_atomic 3 4 (-1) propStep (by norm_num)⟩

/-- C7: `SetInputLimits` and `SetOutputLimits` with `min ≥ max` leave the whole
state as it was, whether the controller is enabled or not. -/
theorem limits_rejection_atomic (min max : ℚ) (s : PID) (h : min ≥ max) :
    SetInputLimits min max s = s ∧ SetOutputLimits min max s = s :=
  ⟨SetInputLimits_reject min max s h, SetOutputLimits_reject min max s h⟩

/-- C7, limit rejection scenario: `SetOutputLimits(50, 50)` on a freshly
constructed controller keeps the limits `[0, 255]`, and a later iteration
clamps the output to 255. -/
theorem limits_rejection_atomic_witness :
    (50 : ℚ) ≥ 50 ∧
    Construct 32 1000 staleMem 10 0 15 200 0 0 = Except.ok freshController ∧
    (SetInputLimits 50 50 freshController = freshController ∧
      SetOutputLimits 50 50 freshController = freshController) ∧
    (SetOutputLimits 50 50 freshController).m_outMin = 0 ∧
    (SetOutputLimits 50 50 freshController).m_outMax = 255 ∧
    (Compute 32 1000 (Enable (SetOutputLimits 50 50 freshController))).2.m_output = 255 :=
  ⟨le_refl _, Construct_staleMem, limits_rejection_atomic 50 50 freshController (le_refl _),
    by norm_num [SetOutputLimits, freshController],
    by norm_num [SetOutputLimits, freshController],
    by norm_num [Compute, Enable, IsEnabled, Initialize, SetOutputLimits, freshController,
      wsub, Clamp]⟩

/-! ## Accepted configuration -/

/-- C8 as stated fails on a state whose sample interval is zero: with
non-negative arguments `SetTunings` divides by `m_sampleTime / 1000 = 0`, so no
state with the described gains results. -/
theorem SetTunings_zeroInterval_faults :
    zeroInterval.m_sampleTime = 0 ∧ (0 : ℚ) ≤ 1 ∧ (0 : ℚ) ≤ 0 ∧
    SetTunings 1 1 0 zeroInterval = Except.error (Fault.divByZero
      { zeroInterval with m_dispP := 1, m_dispI := 1, m_dispD := 0, m_p := 1,
                          m_i := 1 * ((zeroInterval.m_sampleTime : ℚ) / 1000) }) ∧
    SetTunings 1 1 0 zeroInterval ≠ Except.ok
      { zeroInterval with m_dispP := 1, m_dispI := 1, m_dispD := 0, m_p := 1,
                          m_i := 1 * ((zeroInterval.m_sampleTime : ℚ) / 1000),
                          m_d := 0 / ((zeroInterval.m_sampleTime : ℚ) / 1000) } := by
  have hf := SetTunings_fault 1 1 0 zeroInterval (by norm_num) rfl
  refine ⟨rfl, by norm_num, le_refl _, hf, ?_⟩
  rw [hf]
  exact fun h => by cases h

/-- C8, amended: for every state with a non-zero sample interval `S` and every
`p, i, d ≥ 0`, `SetTunings(p, i, d)` succeeds; afterwards `GetP`, `GetI`, `GetD`
return `p`, `i`, `d`, the internal gains are `p`, `i * (S / 1000)` and
`d / (S / 1000)`, and no other member has changed. -/
theorem SetTunings_acceptance (p i d : ℚ) (s : PID)
    (hp : 0 ≤ p) (hi : 0 ≤ i) (hd : 0 ≤ d) (hS : 0 < s.m_sampleTime) :
    ∃ t : PID, SetTunings p i d s = Except.ok t ∧
      GetP t = p ∧ GetI t = i ∧ GetD t = d ∧
      t.m_p = p ∧ t.m_i = i * ((s.m_sampleTime : ℚ) / 1000) ∧
      t.m_d = d / ((s.m_sampleTime : ℚ) / 1000) ∧
      t = { s with m_dispP := t.m_dispP, m_dispI := t.m_dispI, m_dispD := t.m_dispD,
                   m_p := t.m_p, m_i := t.m_i, m_d := t.m_d } := by
  have hneg : ¬ (p < 0 ∨ i < 0 ∨ d < 0) := by
    rintro (h | h | h)
    · exact absurd hp (not_le.mpr h)
    · exact absurd hi (not_le.mpr h)
    · exact absurd hd (not_le.mpr h)
  exact ⟨_, SetTunings_accept p i d s hneg (Nat.pos_iff_ne_zero.mp hS),
    rfl, rfl, rfl, rfl, rfl, rfl, rfl⟩

/-- C8, amended, at the proportional scenario: gains `(3, 2, 5)` at a sample
interval of 100 ms give internal gains `3`, `1/5` and `50`. -/
theorem SetTunings_acceptance_witness :
    (0 : ℚ) ≤ 3 ∧ (0 : ℚ) ≤ 2 ∧ (0 : ℚ) ≤ 5 ∧ 0 < propStep.m_sampleTime ∧
    (∃ t : PID, SetTunings 3 2 5 propStep = Except.ok t ∧
      GetP t = 3 ∧ GetI t = 2 ∧ GetD t = 5 ∧
      t.m_p = 3 ∧ t.m_i = 2 * ((propStep.m_sampleTime : ℚ) / 1000) ∧
      t.m_d = 5 / ((propStep.m_sampleTime : ℚ) / 1000) ∧
      t = { propStep with m_dispP := t.m_dispP, m_dispI := t.m_dispI, m_dispD := t.m_dispD,
                          m_p := t.m_p, m_i := t.m_i, m_d := t.m_d }) ∧
    (2 : ℚ) * ((propStep.m_sampleTime : ℚ) / 1000) = 1 / 5 ∧
    (5 : ℚ) / ((propStep.m_sampleTime : ℚ) / 1000) = 50 :=
  ⟨by norm_num, by norm_num, by norm_num, by decide,
    SetTunings_acceptance 3 2 5 propStep (by norm_num) (by norm_num) (by norm_num) (by decide),
    by norm_num [propStep], by norm_num [propStep]⟩

/-- C9: for `min < max`, `SetOutputLimits(min, max)` stores the two limits and,
on an enabled controller, replaces the bound output and the integral term by
their clamps into `[min, max]`, so that both lie in `[min, max]`; on a disabled
controller it leaves them untouched.  `SetInputLimits(min, max)` stores the two
limits and clamps the bound input exactly when the controller is enabled.  No
other member changes. -/
theorem limits_acceptance (min max : ℚ) (s : PID) (h : min < max) :
    (s.m_isEnabled = true →
      SetOutputLimits min max s =
          { s with m_outMin := min, m_outMax := max, m_output := Clamp s.m_output min max,
                   m_iTerm := Clamp s.m_iTerm min max } ∧
        (min ≤ (SetOutputLimits min max s).m_output ∧
          (SetOutputLimits min max s).m_output ≤ max) ∧
        (min ≤ (SetOutputLimits min max s).m_iTerm ∧
          (SetOutputLimits min max s).m_iTerm ≤ max) ∧
        SetInputLimits min max s =
          { s with m_inMin := min, m_inMax := max, m_input := Clamp s.m_input min max } ∧
        (min ≤ (SetInputLimits min max s).m_input ∧
          (SetInputLimits min max s).m_input ≤ max)) ∧
    (s.m_isEnabled = false →
      SetOutputLimits min max s = { s with m_outMin := min, m_outMax := max } ∧
        SetInputLimits min max s = { s with m_inMin := min, m_inMax := max }) := by
  constructor
  · intro hen
    rw [SetOutputLimits_enabled min max s h hen, SetInputLimits_enabled min max s h hen]
    exact ⟨rfl, Clamp_mem _ _ _ h.le, Clamp_mem _ _ _ h.le, rfl, Clamp_mem _ _ _ h.le⟩
  · intro hen
    exact ⟨SetOutputLimits_disabled min max s h hen, SetInputLimits_disabled min max s h hen⟩

/-- C9 on the proportional scenario, tightening both ranges to `[20, 30]`: the
output 0, the integral term 0 and the input 10 all become 20. -/
theorem limits_acceptance_witness :
    (20 : ℚ) < 30 ∧ propStep.m_isEnabled = true ∧
    SetOutputLimits 20 30 propStep =
      { propStep with m_outMin := 20, m_outMax := 30, m_output := 20, m_iTerm := 20 } ∧
    SetInputLimits 20 30 propStep =
      { propStep with m_inMin := 20, m_inMax := 30, m_input := 20 } := by
  have h := (limits_acceptance 20 30 propStep (by norm_num)).1 rfl
  refine ⟨by norm_num, rfl, ?_, ?_⟩
  · rw [h.1]
    norm_num [Clamp, propStep]
  · rw [h.2.2.2.1]
    norm_num [Clamp, propStep]

/-! ## Bumpless transfer -/

/-- C10: on a disabled controller `Enable()` sets the enabled flag, seeds the
integral term with the bound output clamped into the output limits and the
previous input with the bound input, and changes nothing else; on an enabled
controller it changes nothing; hence `Enable` is idempotent. -/
theorem Enable_bumpless (s : PID) :
    (s.m_isEnabled = false →
      Enable s = { s with m_isEnabled := true,
                          m_iTerm := Clamp s.m_output s.m_outMin s.m_outMax,
                          m_prevInput := s.m_input }) ∧
    (s.m_isEnabled = true → Enable s = s) ∧
    Enable (Enable s) = Enable s := by
  refine ⟨Enable_disabled s, Enable_enabled s, ?_⟩
  cases hen : s.m_isEnabled
  · rw [Enable_disabled s hen]
    exact Enable_enabled _ rfl
  · rw [Enable_enabled s hen, Enable_enabled s hen]

/-- C10 on the freshly constructed controller: the stale integral term 1000 is
replaced by the output 0, the stale previous input 3 by the input 10. -/
theorem Enable_bumpless_witness :
    freshController.m_isEnabled = false ∧
    Enable freshController = enabledController ∧
    Enable (Enable freshController) = Enable freshController := by
  have h := Enable_bumpless freshController
  refine ⟨rfl, ?_, h.2.2⟩
  rw [h.1 rfl]
  norm_num [Clamp, freshController, enabledController]

/-! ## Output range while enabled -/

/-- The object `SetTunings` leaves differs from the one it found in gains only. -/
theorem SetTunings_object (p i d : ℚ) (s : PID) :
    objectAfter (SetTunings p i d s) =
      { s with m_dispP := (objectAfter (SetTunings p i d s)).m_dispP,
               m_dispI := (objectAfter (SetTunings p i d s)).m_dispI,
               m_dispD := (objectAfter (SetTunings p i d s)).m_dispD,
               m_p := (objectAfter (SetTunings p i d s)).m_p,
               m_i := (objectAfter (SetTunings p i d s)).m_i,
               m_d := (objectAfter (SetTunings p i d s)).m_d } := by
  by_cases hneg : p < 0 ∨ i < 0 ∨ d < 0
  · rw [SetTunings_reject p i d s hneg]
    rfl
  · by_cases hS : s.m_sampleTime = 0
    · rw [SetTunings_fault p i d s hneg hS]
      rfl
    · rw [SetTunings_accept p i d s hneg hS]
      rfl

/-- The object the constructor leaves: the one `SetTunings` leaves on line 27,
with the sample interval and the previous time of lines 29 and 30. -/
theorem Construct_object (w millis : Nat) (mem : PID) (input output setpoint p i d : ℚ) :
    objectAfter (Construct w millis mem input output setpoint p i d) =
      { objectAfter (SetTunings p i d
          { mem with m_input := input, m_output := output, m_setpoint := setpoint,
                     m_isEnabled := false, m_outMin := 0, m_outMax := 255 }) with
        m_sampleTime := 100, m_prevTime := wsub w millis 100 } := by
  have h0 : SetOutputLimits 0 255
      { mem with m_input := input, m_output := output, m_setpoint := setpoint,
                 m_isEnabled := false } =
      { mem with m_input := input, m_output := output, m_setpoint := setpoint,
                 m_isEnabled := false, m_outMin := 0, m_outMax := 255 } :=
    SetOutputLimits_disabled 0 255 _ (by norm_num) rfl
  simp only [Construct, h0]
  generalize SetTunings p i d _ = q
  cases q with
  | error e =>
    cases e
    rfl
  | ok s2 => rfl

/-- `SetTunings` does not write the bound output. -/
theorem SetTunings_output (p i d : ℚ) (s t : PID) (h : SetTunings p i d s = Except.ok t) :
    t.m_output = s.m_output := by
  have ho := SetTunings_object p i d s
  rw [h] at ho
  simp only [objectAfter] at ho
  rw [ho]

/-- `SetSampleTime` does not write the bound output. -/
theorem SetSampleTime_output (val : Nat) (s t : PID) (h : SetSampleTime val s = Except.ok t) :
    t.m_output = s.m_output := by
  by_cases hz : s.m_sampleTime = 0 ∨ val = 0
  · obtain ⟨u, hu⟩ := SetSampleTime_fault val s hz
    rw [hu] at h
    cases h
  · push_neg at hz
    rw [SetSampleTime_accept val s hz.1 hz.2] at h
    cases h
    rfl

/-- One public operation other than `Disable` keeps an enabled controller
enabled and an in-range output in range. -/
theorem run_output (w : Nat) (s t : PID) (op : Op) (hs : OutputInv s)
    (hen : s.m_isEnabled = true)
    (hout : s.m_outMin ≤ s.m_output ∧ s.m_output ≤ s.m_outMax)
    (hop : op ≠ Op.disable) (h : op.run w s = Except.ok t) :
    t.m_isEnabled = true ∧ t.m_outMin ≤ t.m_output ∧ t.m_output ≤ t.m_outMax := by
  cases op with
  | setTunings p i d =>
    obtain ⟨he, hmin, hmax, _⟩ := SetTunings_frame _ _ _ _ _ h
    rw [he, hmin, hmax, SetTunings_output _ _ _ _ _ h]
    exact ⟨hen, hout⟩
  | setSampleTime val =>
    obtain ⟨he, hmin, hmax, _⟩ := SetSampleTime_frame _ _ _ h
    rw [he, hmin, hmax, SetSampleTime_output _ _ _ h]
    exact ⟨hen, hout⟩
  | setInputLimits min max =>
    cases h
    by_cases hm : min ≥ max
    · rw [SetInputLimits_reject min max s hm]
      exact ⟨hen, hout⟩
    · rw [SetInputLimits_enabled min max s (not_le.mp hm) hen]
      exact ⟨hen, hout⟩
  | setOutputLimits min max =>
    cases h
    by_cases hm : min ≥ max
    · rw [SetOutputLimits_reject min max s hm]
      exact ⟨hen, hout⟩
    · rw [SetOutputLimits_enabled min max s (not_le.mp hm) hen]
      exact ⟨hen, Clamp_mem _ _ _ (not_le.mp hm).le⟩
  | enable =>
    cases h
    rw [Enable_enabled s hen]
    exact ⟨hen, hout⟩
  | disable => exact absurd rfl hop
  | compute now =>
    cases h
    rcases Compute_cases w now s with ⟨_, hc⟩ | hc
    · rw [hc]
      exact ⟨hen, Clamp_mem _ _ _ hs.1.le⟩
    · rw [hc]
      exact ⟨hen, hout⟩

/-- A sequence of public operations without `Disable` keeps an enabled
controller enabled and an in-range output in range. -/
theorem runOps_output (w : Nat) (ops : List Op) :
    ∀ s t : PID, OutputInv s → s.m_isEnabled = true →
      (s.m_outMin ≤ s.m_output ∧ s.m_output ≤ s.m_outMax) →
      Op.disable ∉ ops → runOps w ops s = Except.ok t →
      t.m_isEnabled = true ∧ t.m_outMin ≤ t.m_output ∧ t.m_output ≤ t.m_outMax := by
  induction ops with
  | nil =>
    intro s t _ hen hout _ h
    simp only [runOps] at h
    cases h
    exact ⟨hen, hout⟩
  | cons op ops ih =>
    intro s t hs hen hout hno h
    simp only [runOps] at h
    generalize hq : op.run w s = q at h
    cases q with
    | error e => cases h
    | ok u =>
      have hop : op ≠ Op.disable := fun hd => hno (by rw [hd]; exact List.mem_cons_self _ _)
      obtain ⟨hen', hout'⟩ := run_output w s u op hs hen hout hop hq
      exact ih u t (run_inv w s u op hs hq) hen' hout'
        (fun hd => hno (List.mem_cons_of_mem _ hd)) h

/-- Construction over `staleMem` with the bound output at 1000. -/
theorem Construct_manualController :
    Construct 32 1000 staleMem 10 1000 15 200 0 0 = Except.ok manualController := by
  norm_num [Construct, SetOutputLimits, SetTunings, fdiv, staleMem, manualController,
    freshController, wsub]

/-- C11 as stated fails right after `Enable()`: the controller built with the
bound output at 1000 is reachable, and enabling it leaves the output at 1000,
above the upper output limit 255, because `Initialize` clamps the integral
term only.  It also fails on a history through a division by zero: after
`SetSampleTime(0)` on the freshly constructed controller and `Enable()`, a
`Compute` leaves the controller enabled with NaN in the bound output. -/
theorem Enable_output_above_limit :
    (Reachable 32 (Enable manualController) ∧
    (Enable manualController).m_isEnabled = true ∧
    (Enable manualController).m_outMax = 255 ∧
    (Enable manualController).m_output = 1000 ∧
    ¬ ((Enable manualController).m_outMin ≤ (Enable manualController).m_output ∧
        (Enable manualController).m_output ≤ (Enable manualController).m_outMax)) ∧
    (Reachable 32 freshController ∧
    Op.dividesByZero freshController (Op.setSampleTime 0) ∧
    SetSampleTimeN 0 (ofPID freshController) = some zeroedInterval ∧
    ComputeN 32 1000 (EnableN zeroedInterval) = (true, nanOutput) ∧
    nanOutput.m_isEnabled = true ∧ nanOutput.m_output = none ∧
    ¬ (Dbl.le nanOutput.m_outMin nanOutput.m_output = true ∧
        Dbl.le nanOutput.m_output nanOutput.m_outMax = true)) := by
  refine ⟨?_, Reachable.construct 1000 staleMem 10 0 15 200 0 0 freshController
      Construct_staleMem, Or.inr rfl, SetSampleTimeN_freshController,
    ComputeN_zeroedInterval, rfl, rfl, by simp [Dbl.le, nanOutput]⟩
  have hr : Reachable 32 (Enable manualController) :=
    Reachable.step manualController _ Op.enable
      (Reachable.construct 1000 staleMem 10 1000 15 200 0 0 manualController
        Construct_manualController) rfl
  have he : Enable manualController =
      { manualController with m_isEnabled := true, m_iTerm := 255, m_prevInput := 10 } := by
    rw [Enable_disabled manualController rfl]
    norm_num [Clamp, manualController, freshController]
  rw [he]
  refine ⟨he ▸ hr, rfl, rfl, rfl, ?_⟩
  norm_num [manualController, freshController]

/-- C11, amended: in every state reached from construction through public
operations none of which divides by zero, the bound output lies between the
output limits right after every `Compute` that returned `true` and right after
every accepted `SetOutputLimits` made while enabled; and once the controller is
enabled with its output between the limits, the controller stays enabled and
the output stays between the limits through every further sequence of public
operations that neither calls `Disable` nor divides by zero. -/
theorem output_stays_in_limits (w : Nat) (s : PID) (hs : Reachable w s) :
    (∀ now : Nat, (Compute w now s).1 = true →
      (Compute w now s).2.m_isEnabled = true ∧
        (Compute w now s).2.m_outMin ≤ (Compute w now s).2.m_output ∧
        (Compute w now s).2.m_output ≤ (Compute w now s).2.m_outMax) ∧
    (∀ min max : ℚ, min < max → s.m_isEnabled = true →
      (SetOutputLimits min max s).m_isEnabled = true ∧
        (SetOutputLimits min max s).m_outMin ≤ (SetOutputLimits min max s).m_output ∧
        (SetOutputLimits min max s).m_output ≤ (SetOutputLimits min max s).m_outMax) ∧
    (s.m_isEnabled = true → s.m_outMin ≤ s.m_output ∧ s.m_output ≤ s.m_outMax →
      ∀ (ops : List Op) (t : PID), Op.disable ∉ ops → runOps w ops s = Except.ok t →
        t.m_isEnabled = true ∧ t.m_outMin ≤ t.m_output ∧ t.m_output ≤ t.m_outMax) := by
  have hinv := Reachable_inv w s hs
  refine ⟨fun now hc => ?_, fun min max hm hen => ?_, fun hen hout ops t hno h => ?_⟩
  · obtain ⟨hen, hg⟩ := (Compute_fst_iff w now s).mp hc
    rw [Compute_open w now s hen hg]
    exact ⟨hen, Clamp_mem _ s.m_outMin s.m_outMax hinv.1.le⟩
  · rw [SetOutputLimits_enabled min max s hm hen]
    exact ⟨hen, Clamp_mem _ _ _ hm.le⟩
  · exact runOps_output w ops s t hinv hen hout hno h

/-- C11, amended, on the freshly constructed and enabled controller, whose
output 0 is within `[0, 255]`: after new tunings, tighter output limits
`[20, 30]`, an iteration and a second `Enable()` the output is 30. -/
theorem output_stays_in_limits_witness :
    Reachable 32 enabledController ∧
    enabledController.m_isEnabled = true ∧
    (enabledController.m_outMin ≤ enabledController.m_output ∧
      enabledController.m_output ≤ enabledController.m_outMax) ∧
    Op.disable ∉ [Op.setTunings 1 0 0, Op.setOutputLimits 20 30, Op.compute 1000, Op.enable] ∧
    runOps 32 [Op.setTunings 1 0 0, Op.setOutputLimits 20 30, Op.compute 1000, Op.enable]
        enabledController =
      Except.ok { enabledController with
        m_dispP := 1, m_p := 1, m_outMin := 20, m_outMax := 30, m_input := 4,
        m_output := 30, m_iTerm := 20, m_prevInput := 4, m_prevTime := 1000 } ∧
    (30 : ℚ) ≤ 30 := by
  have hrun : runOps 32
      [Op.setTunings 1 0 0, Op.setOutputLimits 20 30, Op.compute 1000, Op.enable]
        enabledController =
      Except.ok { enabledController with
        m_dispP := 1, m_p := 1, m_outMin := 20, m_outMax := 30, m_input := 4,
        m_output := 30, m_iTerm := 20, m_prevInput := 4, m_prevTime := 1000 } := by
    norm_num [runOps, Op.run, SetTunings, fdiv, SetOutputLimits, Compute, Enable, IsEnabled,
      Clamp, wsub, enabledController, freshController]
  have hout : enabledController.m_outMin ≤ enabledController.m_output ∧
      enabledController.m_output ≤ enabledController.m_outMax := by
    norm_num [enabledController, freshController]
  have hno : Op.disable ∉
      [Op.setTunings 1 0 0, Op.setOutputLimits 20 30, Op.compute 1000, Op.enable] := by
    decide
  exact ⟨Reachable_enabledController, rfl, hout, hno, hrun,
    ((output_stays_in_limits 32 enabledController Reachable_enabledController).2.2 rfl hout
      _ _ hno hrun).2.2⟩

/-! ## Construction -/

/-- A call at the clock value of construction finds the gate open, whenever the
counter is wide enough to hold the default interval. -/
theorem wsub_default (w t0 : Nat) (hw : 100 < 2 ^ w) :
    wsub w t0 (wsub w t0 100) = 100 := by
  have h : (wsub w t0 (wsub w t0 100) : Int) = 100 := by
    rw [wsub_eq_emod, wsub_eq_emod]
    have h1 := Int.emod_add_ediv ((t0 : Int) - ((100 : Nat) : Int)) ((2 : Int) ^ w)
    have h2 : (t0 : Int) - ((t0 : Int) - ((100 : Nat) : Int)) % (2 : Int) ^ w
        = 100 + (2 : Int) ^ w * (((t0 : Int) - ((100 : Nat) : Int)) / (2 : Int) ^ w) := by
      push_cast at h1 ⊢
      linear_combination (-1 : Int) * h1
    rw [h2, Int.add_mul_emod_self_left]
    exact Int.emod_eq_of_lt (by norm_num) (by exact_mod_cast hw)
  exact_mod_cast h

/-- C12: for every clock value `t0` at construction, every previous content of
the object's memory and every argument list, the constructor leaves a disabled
controller with output limits `[0, 255]`, sample interval 100 and previous time
`(t0 - 100) mod 2 ^ w`, and after `Enable()` a `Compute` at clock value `t0`
returns `true`.  The width `w` of the counter is any that holds the value 100. -/
theorem Construct_defaults (w t0 : Nat) (mem : PID) (input output setpoint p i d : ℚ)
    (hw : 100 < 2 ^ w) :
    ∃ c : PID, objectAfter (Construct w t0 mem input output setpoint p i d) = c ∧
      c.m_isEnabled = false ∧ c.m_outMin = 0 ∧ c.m_outMax = 255 ∧
      GetSampleTime c = 100 ∧
      (c.m_prevTime : Int) = ((t0 : Int) - 100) % (2 : Int) ^ w ∧
      (Compute w t0 (Enable c)).1 = true := by
  refine ⟨_, rfl, ?_⟩
  rw [Construct_object, SetTunings_object]
  refine ⟨rfl, rfl, rfl, rfl, ?_, ?_⟩
  · exact wsub_eq_emod w t0 100
  · rw [Compute_fst_iff, Enable_disabled _ rfl]
    refine ⟨rfl, ?_⟩
    show wsub w t0 (wsub w t0 100) ≥ 100
    rw [wsub_default w t0 hw]

/-- C12 on a 32-bit counter 40 ms after start-up, where `40 - 100` wraps to
`2 ^ 32 - 60`. -/
theorem Construct_defaults_witness :
    100 < 2 ^ 32 ∧
    (∃ c : PID, objectAfter (Construct 32 40 staleMem 10 0 15 200 0 0) = c ∧
      c.m_isEnabled = false ∧ c.m_outMin = 0 ∧ c.m_outMax = 255 ∧
      GetSampleTime c = 100 ∧
      (c.m_prevTime : Int) = ((40 : Int) - 100) % (2 : Int) ^ 32 ∧
      (Compute 32 40 (Enable c)).1 = true) ∧
    ((40 : Int) - 100) % (2 : Int) ^ 32 = 2 ^ 32 - 60 :=
  ⟨by norm_num, Construct_defaults 32 40 staleMem 10 0 15 200 0 0 (by norm_num), by decide⟩

/-- C13 on two previous contents of the object's memory.  Over `staleMem`,
which holds 250 where `m_sampleTime` lives, `PID(input, output, setpoint, 1, 2, 3)`
ends with sample interval 100 but internal gains `2 * (250 / 1000) = 1/2` and
`3 / (250 / 1000) = 12`, not `2 * (100 / 1000) = 1/5` and `3 / (100 / 1000) = 30`.
Over zeroed memory the internal integral gain is `2 * 0 = 0` and the derivative
gain is a division by zero.  `SetTunings` runs on line 27, before line 29
assigns the interval. -/
theorem Construct_tunings_stale_interval :
    (∃ c : PID, Construct 32 1000 staleMem 10 0 15 1 2 3 = Except.ok c ∧
      GetSampleTime c = 100 ∧ GetP c = 1 ∧ GetI c = 2 ∧ GetD c = 3 ∧
      c.m_p = 1 ∧ c.m_i = 1 / 2 ∧ c.m_d = 12 ∧
      c.m_i ≠ 2 * ((100 : ℚ) / 1000) ∧ c.m_d ≠ 3 / ((100 : ℚ) / 1000)) ∧
    (∃ c : PID, Construct 32 1000 zeroMem 10 0 15 1 2 3 = Except.error (Fault.divByZero c) ∧
      GetSampleTime c = 100 ∧ GetI c = 2 ∧ c.m_i = 0 ∧ c.m_i ≠ 2 * ((100 : ℚ) / 1000)) := by
  constructor
  · refine ⟨staleTuned, ?_, ?_⟩
    · norm_num [Construct, SetOutputLimits, SetTunings, fdiv, staleMem, staleTuned,
        freshController, wsub]
    · norm_num [GetSampleTime, GetP, GetI, GetD, staleTuned, freshController]
  · refine ⟨zeroTuned, ?_, ?_⟩
    · norm_num [Construct, SetOutputLimits, SetTunings, fdiv, zeroMem, zeroTuned, wsub]
    · norm_num [GetSampleTime, GetI, zeroTuned, zeroMem]

/-! ## Sample-time rescale -/

/-- C14: for every state with sample interval `S > 0` and every new interval
`S' > 0`, `SetSampleTime(S')` succeeds, multiplies the internal integral gain
by `S' / S`, divides the internal derivative gain by `S' / S`, stores `S'`
and changes nothing else; hence internal gains normalised to `S` before the
call are normalised to `S'` after it, and are the gains `SetTunings` called
with the display gains would then compute. -/
theorem SetSampleTime_rescales (val : Nat) (s : PID)
    (hS : 0 < s.m_sampleTime) (hv : 0 < val) :
    ∃ t : PID, SetSampleTime val s = Except.ok t ∧
      t.m_i = s.m_i * ((val : ℚ) / (s.m_sampleTime : ℚ)) ∧
      t.m_d = s.m_d / ((val : ℚ) / (s.m_sampleTime : ℚ)) ∧
      GetSampleTime t = val ∧
      t = { s with m_i := t.m_i, m_d := t.m_d, m_sampleTime := val } ∧
      (s.m_i = s.m_dispI * ((s.m_sampleTime : ℚ) / 1000) →
        s.m_d = s.m_dispD / ((s.m_sampleTime : ℚ) / 1000) →
        t.m_i = s.m_dispI * ((val : ℚ) / 1000) ∧
        t.m_d = s.m_dispD / ((val : ℚ) / 1000) ∧
        ∃ u : PID, SetTunings s.m_dispP s.m_dispI s.m_dispD t = Except.ok u ∧
          u.m_i = t.m_i ∧ u.m_d = t.m_d) := by
  have hS0 : s.m_sampleTime ≠ 0 := Nat.pos_iff_ne_zero.mp hS
  have hv0 : val ≠ 0 := Nat.pos_iff_ne_zero.mp hv
  have hSq : (s.m_sampleTime : ℚ) ≠ 0 := Nat.cast_ne_zero.mpr hS0
  have hvq : (val : ℚ) ≠ 0 := Nat.cast_ne_zero.mpr hv0
  refine ⟨_, SetSampleTime_accept val s hS0 hv0, rfl, rfl, rfl, rfl, ?_⟩
  intro hi hd
  have e1 : s.m_i * ((val : ℚ) / (s.m_sampleTime : ℚ)) = s.m_dispI * ((val : ℚ) / 1000) := by
    rw [hi]
    field_simp
    ring
  have e2 : s.m_d / ((val : ℚ) / (s.m_sampleTime : ℚ)) = s.m_dispD / ((val : ℚ) / 1000) := by
    rw [hd]
    field_simp
  refine ⟨e1, e2, ?_⟩
  by_cases hneg : s.m_dispP < 0 ∨ s.m_dispI < 0 ∨ s.m_dispD < 0
  · exact ⟨_, SetTunings_reject _ _ _ _ hneg, rfl, rfl⟩
  · exact ⟨_, SetTunings_accept _ _ _ _ hneg hv0, e1.symm, e2.symm⟩

/-- C14, sample-time rescale scenario: display integral gain 2 at 100 ms is
internally `1/5`; `SetSampleTime(200)` makes it `2/5` and turns the internal
derivative gain 30 into 15. -/
theorem SetSampleTime_rescales_witness :
    0 < rescaleStart.m_sampleTime ∧ 0 < 200 ∧
    rescaleStart.m_i = 1 / 5 ∧
    SetSampleTime 200 rescaleStart =
      Except.ok { rescaleStart with m_i := 2 / 5, m_d := 15, m_sampleTime := 200 } := by
  obtain ⟨t, ht, hi, hd, _, hframe, _⟩ :=
    SetSampleTime_rescales 200 rescaleStart (by decide) (by decide)
  refine ⟨by decide, by decide, rfl, ?_⟩
  rw [ht, hframe, hi, hd]
  norm_num [rescaleStart, propStep]

/-! ## Limit ordering -/

/-- C15 on the controller built over `staleMem`: it is reachable, its output
limits are the ordered pair `[0, 255]`, but its input limits are the 9 and 4
the memory held, which are not ordered, and the first iteration clamps the
input 10 to 4.  Over zeroed memory both input limits are 0.  The constructor
never assigns `m_inMin` and `m_inMax`. -/
theorem Construct_input_limits_stale :
    Reachable 32 freshController ∧
    freshController.m_outMin < freshController.m_outMax ∧
    freshController.m_inMin = 9 ∧ freshController.m_inMax = 4 ∧
    ¬ (freshController.m_inMin < freshController.m_inMax) ∧
    (Compute 32 1000 (Enable freshController)).2.m_input = 4 ∧
    (objectAfter (Construct 32 1000 zeroMem 10 0 15 1 2 3)).m_inMin = 0 ∧
    (objectAfter (Construct 32 1000 zeroMem 10 0 15 1 2 3)).m_inMax = 0 := by
  refine ⟨Reachable.construct 1000 staleMem 10 0 15 200 0 0 freshController
      Construct_staleMem, ?_, rfl, rfl, ?_, ?_, ?_, ?_⟩
  · norm_num [freshController]
  · norm_num [freshController]
  · norm_num [Compute, Enable, IsEnabled, Initialize, Clamp, wsub, freshController]
  · rw [Construct_object, SetTunings_object]
    rfl
  · rw [Construct_object, SetTunings_object]
    rfl

/-! ## Integral accumulation -/

/-- `Clamp` leaves a value between its bounds alone. -/
theorem Clamp_id (val min max : ℚ) (h1 : min ≤ val) (h2 : val ≤ max) :
    Clamp val min max = val := by
  unfold Clamp
  rw [if_neg (not_lt.mpr h2), if_neg (not_lt.mpr h1)]

/-- One saturating accumulation step: adding a non-negative increment `c` to
the saturated sum of `a` and clamping again is the saturated sum of `a + c`. -/
theorem Clamp_accumulate (a c lo hi : ℚ) (ha : 0 ≤ a) (hc : 0 ≤ c) (hlo : lo ≤ 0)
    (hhi : 0 < hi) :
    Clamp (Min.min a hi + c) lo hi = Min.min (a + c) hi := by
  have hm0 : 0 ≤ Min.min a hi := le_min ha hhi.le
  by_cases hgt : Min.min a hi + c > hi
  · have hac : hi ≤ a + c := by
      have := min_le_left a hi
      linarith
    unfold Clamp
    rw [if_pos hgt, min_eq_right hac]
  · have hle : Min.min a hi + c ≤ hi := not_lt.mp hgt
    rw [Clamp_id _ _ _ (by linarith) hle]
    by_cases hah : a ≤ hi
    · rw [min_eq_left hah] at hle ⊢
      rw [min_eq_left hle]
    · have hah' : hi < a := not_le.mp hah
      rw [min_eq_right hah'.le] at hle ⊢
      have hc0 : c = 0 := le_antisymm (by linarith) hc
      rw [hc0, add_zero, add_zero, min_eq_right hah'.le]

/-- The accumulation invariant along a run of gate-passing iterations: after
`m` iterations already made and `nows.length` more, the integral term is the
saturated sum of `m + nows.length` increments, and the output equals it as soon
as one iteration has run. -/
theorem computeAll_integral (w : Nat) (nows : List Nat) :
    ∀ (s t : PID) (m : Nat), s.m_isEnabled = true → s.m_p = 0 → s.m_d = 0 → 0 ≤ s.m_i →
      s.m_outMin ≤ 0 → 0 < s.m_outMax →
      s.m_inMin ≤ s.m_input → s.m_input ≤ s.m_inMax →
      0 ≤ s.m_setpoint - s.m_input →
      s.m_iTerm = Min.min ((m : ℚ) * s.m_i * (s.m_setpoint - s.m_input)) s.m_outMax →
      (1 ≤ m → s.m_output = s.m_iTerm) →
      computeAll w nows s = some t →
      t.m_iTerm =
          Min.min (((m + nows.length : Nat) : ℚ) * s.m_i * (s.m_setpoint - s.m_input))
            s.m_outMax ∧
        (1 ≤ m + nows.length → t.m_output = t.m_iTerm) := by
  induction nows with
  | nil =>
    intro s t m _ _ _ _ _ _ _ _ _ hit hout h
    simp only [computeAll] at h
    cases h
    exact ⟨by simpa using hit, by simpa using hout⟩
  | cons now rest ih =>
    intro s t m hen hp hd hi hlo hhi hin1 hin2 he hit _ h
    simp only [computeAll] at h
    by_cases hc : (Compute w now s).1 = true
    · rw [if_pos hc] at h
      obtain ⟨_, hg⟩ := (Compute_fst_iff w now s).mp hc
      rw [Compute_open w now s hen hg] at h
      have hin : Clamp s.m_input s.m_inMin s.m_inMax = s.m_input := Clamp_id _ _ _ hin1 hin2
      have hm0 : (0 : ℚ) ≤ (m : ℚ) * s.m_i * (s.m_setpoint - s.m_input) :=
        mul_nonneg (mul_nonneg (Nat.cast_nonneg m) hi) he
      have hc0 : (0 : ℚ) ≤ s.m_i * (s.m_setpoint - s.m_input) := mul_nonneg hi he
      have hacc : Clamp (s.m_iTerm + s.m_i * (s.m_setpoint - s.m_input)) s.m_outMin s.m_outMax
          = Min.min (((m + 1 : Nat) : ℚ) * s.m_i * (s.m_setpoint - s.m_input)) s.m_outMax := by
        rw [hit, Clamp_accumulate _ _ _ _ hm0 hc0 hlo hhi]
        congr 1
        push_cast
        ring
      have hin0 : s.m_outMin ≤
          Min.min (((m + 1 : Nat) : ℚ) * s.m_i * (s.m_setpoint - s.m_input)) s.m_outMax :=
        le_trans hlo (le_min (mul_nonneg (mul_nonneg (Nat.cast_nonneg _) hi) he) hhi.le)
      have hnext := ih (referenceStep now s) t (m + 1) hen hp hd hi hlo hhi
        (by show s.m_inMin ≤ Clamp s.m_input s.m_inMin s.m_inMax; rw [hin]; exact hin1)
        (by show Clamp s.m_input s.m_inMin s.m_inMax ≤ s.m_inMax; rw [hin]; exact hin2)
        (by show 0 ≤ s.m_setpoint - Clamp s.m_input s.m_inMin s.m_inMax; rw [hin]; exact he)
        (by
          show Clamp (s.m_iTerm + s.m_i * (s.m_setpoint - Clamp s.m_input s.m_inMin s.m_inMax))
              s.m_outMin s.m_outMax
            = Min.min (((m + 1 : Nat) : ℚ) * s.m_i *
                (s.m_setpoint - Clamp s.m_input s.m_inMin s.m_inMax)) s.m_outMax
          rw [hin]
          exact hacc)
        (by
          intro _
          show Clamp (s.m_p * (s.m_setpoint - Clamp s.m_input s.m_inMin s.m_inMax)
              + Clamp (s.m_iTerm + s.m_i * (s.m_setpoint - Clamp s.m_input s.m_inMin s.m_inMax))
                  s.m_outMin s.m_outMax
              - s.m_d * (Clamp s.m_input s.m_inMin s.m_inMax - s.m_prevInput))
              s.m_outMin s.m_outMax
            = Clamp (s.m_iTerm + s.m_i * (s.m_setpoint - Clamp s.m_input s.m_inMin s.m_inMax))
                s.m_outMin s.m_outMax
          rw [hin, hp, hd, hacc, zero_mul, zero_mul, zero_add, sub_zero]
          exact Clamp_id _ _ _ hin0 (min_le_right _ _))
        h
      have hlen : m + 1 + rest.length = m + (now :: rest).length := by
        simp only [List.length_cons]
        omega
      have hsp : (referenceStep now s).m_setpoint - (referenceStep now s).m_input
          = s.m_setpoint - s.m_input := by
        show s.m_setpoint - Clamp s.m_input s.m_inMin s.m_inMax = s.m_setpoint - s.m_input
        rw [hin]
      rw [hsp, hlen] at hnext
      exact hnext
    · rw [if_neg hc] at h
      cases h

/-- C16: on an enabled controller with zero proportional and derivative gain,
integral gain `k ≥ 0`, integral term 0, output limits with `outMin ≤ 0 < outMax`,
the input within the input limits and a fixed error `e = setpoint - input ≥ 0`,
`n ≥ 1` successive `Compute` calls that each pass the gate leave the integral
term at `min (n * k * e) outMax` and the bound output at the same value. -/
theorem integral_accumulates (w : Nat) (nows : List Nat) (s t : PID)
    (hen : s.m_isEnabled = true) (hp : s.m_p = 0) (hd : s.m_d = 0) (hk : 0 ≤ s.m_i)
    (hit : s.m_iTerm = 0) (hlo : s.m_outMin ≤ 0) (hhi : 0 < s.m_outMax)
    (hin : s.m_inMin ≤ s.m_input ∧ s.m_input ≤ s.m_inMax)
    (he : 0 ≤ s.m_setpoint - s.m_input)
    (hn : 1 ≤ nows.length) (hrun : computeAll w nows s = some t) :
    t.m_iTerm = Min.min ((nows.length : ℚ) * s.m_i * (s.m_setpoint - s.m_input)) s.m_outMax ∧
    t.m_output = Min.min ((nows.length : ℚ) * s.m_i * (s.m_setpoint - s.m_input)) s.m_outMax := by
  have h0 : s.m_iTerm
      = Min.min (((0 : Nat) : ℚ) * s.m_i * (s.m_setpoint - s.m_input)) s.m_outMax := by
    rw [hit, Nat.cast_zero, zero_mul, zero_mul, min_eq_left hhi.le]
  have h := computeAll_integral w nows s t 0 hen hp hd hk hlo hhi hin.1 hin.2 he h0
    (fun h1 => absurd h1 (by decide)) hrun
  rw [Nat.zero_add] at h
  exact ⟨h.1, (h.2 hn).trans h.1⟩

/-- C16, integral accumulation scenario: gain 1, error 1, output limits
`[0, 10]`; three iterations one second apart give integral term 3 and output 3. -/
theorem integral_accumulates_witness :
    integralStart.m_isEnabled = true ∧ integralStart.m_p = 0 ∧ integralStart.m_d = 0 ∧
    0 ≤ integralStart.m_i ∧ integralStart.m_iTerm = 0 ∧
    integralStart.m_outMin ≤ 0 ∧ 0 < integralStart.m_outMax ∧
    (integralStart.m_inMin ≤ integralStart.m_input ∧
      integralStart.m_input ≤ integralStart.m_inMax) ∧
    0 ≤ integralStart.m_setpoint - integralStart.m_input ∧
    1 ≤ [1000, 2000, 3000].length ∧
    computeAll 32 [1000, 2000, 3000] integralStart =
      some { integralStart with m_iTerm := 3, m_output := 3, m_prevTime := 3000 } ∧
    Min.min ((([1000, 2000, 3000] : List Nat).length : ℚ) * integralStart.m_i *
      (integralStart.m_setpoint - integralStart.m_input)) integralStart.m_outMax = 3 := by
  have hrun : computeAll 32 [1000, 2000, 3000] integralStart =
      some { integralStart with m_iTerm := 3, m_output := 3, m_prevTime := 3000 } := by
    norm_num [computeAll, Compute, Clamp, wsub, integralStart]
  have hin : integralStart.m_inMin ≤ integralStart.m_input ∧
      integralStart.m_input ≤ integralStart.m_inMax := by
    norm_num [integralStart]
  have h := integral_accumulates 32 [1000, 2000, 3000] integralStart _ rfl rfl rfl
    (by norm_num [integralStart]) rfl (by norm_num [integralStart])
    (by norm_num [integralStart]) hin (by norm_num [integralStart]) (by decide) hrun
  exact ⟨rfl, rfl, rfl, by norm_num [integralStart], rfl, by norm_num [integralStart],
    by norm_num [integralStart], hin, by norm_num [integralStart], by decide, hrun, h.1.symm⟩

/-! ## Derivative on measurement -/

/-- C17: for an enabled controller with zero proportional and integral gain
and any derivative gain, a gate-passing `Compute` at the same clock value on
two states that differ in the setpoint only returns `true` on both and leaves
the same bound output, the same integral term and the same previous input. -/
theorem derivative_ignores_setpoint (w now : Nat) (s : PID) (sp : ℚ)
    (hen : s.m_isEnabled = true) (hp : s.m_p = 0) (hi : s.m_i = 0)
    (hgate : ((now : Int) - (s.m_prevTime : Int)) % (2 : Int) ^ w ≥ (s.m_sampleTime : Int)) :
    (Compute w now s).1 = true ∧
    (Compute w now { s with m_setpoint := sp }).1 = true ∧
    (Compute w now { s with m_setpoint := sp }).2.m_output = (Compute w now s).2.m_output ∧
    (Compute w now { s with m_setpoint := sp }).2.m_iTerm = (Compute w now s).2.m_iTerm ∧
    (Compute w now { s with m_setpoint := sp }).2.m_prevInput
      = (Compute w now s).2.m_prevInput := by
  have hg : wsub w now s.m_prevTime ≥ s.m_sampleTime :=
    (gate_iff w now s.m_prevTime s.m_sampleTime).mpr hgate
  rw [Compute_open w now s hen hg, Compute_open w now { s with m_setpoint := sp } hen hg]
  simp only [referenceStep, hp, hi, zero_mul, add_zero, zero_add, and_self]

/-- C17 on a controller whose input moved from 7 to 10 with derivative gain 10:
the output is `50 - 10 * 3 = 20` for setpoint 15 and for setpoint 90 alike. -/
theorem derivative_ignores_setpoint_witness :
    derivativeOnly.m_isEnabled = true ∧ derivativeOnly.m_p = 0 ∧ derivativeOnly.m_i = 0 ∧
    ((100 : Int) - (derivativeOnly.m_prevTime : Int)) % (2 : Int) ^ 32
      ≥ (derivativeOnly.m_sampleTime : Int) ∧
    (Compute 32 100 { derivativeOnly with m_setpoint := 90 }).2.m_output
      = (Compute 32 100 derivativeOnly).2.m_output ∧
    (Compute 32 100 derivativeOnly).2.m_output = 20 :=
  ⟨rfl, rfl, rfl, by decide,
    (derivative_ignores_setpoint 32 100 derivativeOnly 90 rfl rfl rfl (by decide)).2.2.1,
    by norm_num [Compute, Clamp, wsub, derivativeOnly, propStep]⟩

/-! ## Zero sample interval -/

/-- `Enable` always leaves the controller enabled and never writes the timing members. -/
theorem Enable_timing (s : PID) :
    (Enable s).m_isEnabled = true ∧ (Enable s).m_sampleTime = s.m_sampleTime ∧
      (Enable s).m_prevTime = s.m_prevTime := by
  cases hen : s.m_isEnabled
  · rw [Enable_disabled s hen]
    exact ⟨rfl, rfl, rfl⟩
  · rw [Enable_enabled s hen]
    exact ⟨hen, rfl, rfl⟩

/-- C18: on every state with sample interval `S > 0`, `SetSampleTime(0)` is not
turned away: the ratio `0 / S` is 0, the internal integral gain becomes 0, the
division of the internal derivative gain by the ratio is a division by zero,
and the sample interval 0 is stored; from then on every `Compute` on the
enabled controller returns `true`, at any clock value. -/
theorem SetSampleTime_zero_unguarded (w : Nat) (s : PID) (hS : 0 < s.m_sampleTime) :
    fdiv ((0 : Nat) : ℚ) (s.m_sampleTime : ℚ) = some 0 ∧
    fdiv s.m_d 0 = none ∧
    SetSampleTime 0 s = Except.error (Fault.divByZero { s with m_i := 0, m_sampleTime := 0 }) ∧
    (objectAfter (SetSampleTime 0 s)).m_i = 0 ∧
    GetSampleTime (objectAfter (SetSampleTime 0 s)) = 0 ∧
    objectAfter (SetSampleTime 0 s) ≠ s ∧
    (∀ now : Nat, (Compute w now (Enable (objectAfter (SetSampleTime 0 s)))).1 = true) := by
  have hS0 : s.m_sampleTime ≠ 0 := Nat.pos_iff_ne_zero.mp hS
  have hSq : ¬ ((s.m_sampleTime : ℚ) = 0) := Nat.cast_ne_zero.mpr hS0
  have hrun := SetSampleTime_fault_zero s hS0
  rw [hrun]
  refine ⟨?_, ?_, rfl, rfl, rfl, ?_, ?_⟩
  · simp only [fdiv, if_neg hSq, Nat.cast_zero, zero_div]
  · simp only [fdiv, if_true]
  · intro h
    have h2 : (objectAfter
        (Except.error (Fault.divByZero { s with m_i := 0, m_sampleTime := 0 }))).m_sampleTime
          = s.m_sampleTime := by rw [h]
    exact hS0 h2.symm
  · intro now
    rw [Compute_fst_iff]
    obtain ⟨he, hst, _⟩ := Enable_timing
      (objectAfter (Except.error (Fault.divByZero { s with m_i := 0, m_sampleTime := 0 })))
    rw [he, hst]
    exact ⟨rfl, Nat.zero_le _⟩

/-- C18 on the proportional scenario: after `SetSampleTime(0)` a call at the
clock value of the previous iteration runs. -/
theorem SetSampleTime_zero_unguarded_witness :
    0 < propStep.m_sampleTime ∧
    SetSampleTime 0 propStep =
      Except.error (Fault.divByZero { propStep with m_i := 0, m_sampleTime := 0 }) ∧
    (Compute 32 propStep.m_prevTime (Enable (objectAfter (SetSampleTime 0 propStep)))).1
      = true := by
  have h := SetSampleTime_zero_unguarded 32 propStep (by decide)
  exact ⟨by decide, h.2.2.1, h.2.2.2.2.2.2 _⟩

/-! ## Monotonicity in the setpoint -/

/-- With ordered bounds `Clamp` is monotone in the clamped value. -/
theorem Clamp_mono (a b min max : ℚ) (h : min ≤ max) (hab : a ≤ b) :
    Clamp a min max ≤ Clamp b min max := by
  rw [Clamp_eq_max_min a min max h, Clamp_eq_max_min b min max h]
  exact max_le_max (le_refl _) (min_le_min hab (le_refl _))

/-- C19: for two enabled states that differ in the setpoint only, with
setpoints `sp1 ≤ sp2`, non-negative internal proportional and integral gains
and `outMin ≤ outMax`, a gate-passing `Compute` at the same clock value returns
`true` on both and leaves integral terms and bound outputs in the same order. -/
theorem Compute_monotone_in_setpoint (w now : Nat) (s : PID) (sp1 sp2 : ℚ)
    (hen : s.m_isEnabled = true) (h12 : sp1 ≤ sp2)
    (hp : 0 ≤ s.m_p) (hi : 0 ≤ s.m_i) (hlim : s.m_outMin ≤ s.m_outMax)
    (hgate : ((now : Int) - (s.m_prevTime : Int)) % (2 : Int) ^ w ≥ (s.m_sampleTime : Int)) :
    (Compute w now { s with m_setpoint := sp1 }).1 = true ∧
    (Compute w now { s with m_setpoint := sp2 }).1 = true ∧
    (Compute w now { s with m_setpoint := sp1 }).2.m_iTerm
      ≤ (Compute w now { s with m_setpoint := sp2 }).2.m_iTerm ∧
    (Compute w now { s with m_setpoint := sp1 }).2.m_output
      ≤ (Compute w now { s with m_setpoint := sp2 }).2.m_output := by
  have hg : wsub w now s.m_prevTime ≥ s.m_sampleTime :=
    (gate_iff w now s.m_prevTime s.m_sampleTime).mpr hgate
  rw [Compute_open w now { s with m_setpoint := sp1 } hen hg,
    Compute_open w now { s with m_setpoint := sp2 } hen hg]
  have herr : sp1 - Clamp s.m_input s.m_inMin s.m_inMax
      ≤ sp2 - Clamp s.m_input s.m_inMin s.m_inMax := sub_le_sub_right h12 _
  have hit : Clamp (s.m_iTerm + s.m_i * (sp1 - Clamp s.m_input s.m_inMin s.m_inMax))
        s.m_outMin s.m_outMax
      ≤ Clamp (s.m_iTerm + s.m_i * (sp2 - Clamp s.m_input s.m_inMin s.m_inMax))
        s.m_outMin s.m_outMax :=
    Clamp_mono _ _ _ _ hlim (add_le_add_left (mul_le_mul_of_nonneg_left herr hi) _)
  refine ⟨rfl, rfl, hit, ?_⟩
  exact Clamp_mono _ _ _ _ hlim
    (sub_le_sub_right (add_le_add (mul_le_mul_of_nonneg_left herr hp) hit) _)

/-- C19 on the proportional scenario with setpoints 15 and 40: outputs 10 and 60. -/
theorem Compute_monotone_in_setpoint_witness :
    propStep.m_isEnabled = true ∧ (15 : ℚ) ≤ 40 ∧ 0 ≤ propStep.m_p ∧ 0 ≤ propStep.m_i ∧
    propStep.m_outMin ≤ propStep.m_outMax ∧
    ((100 : Int) - (propStep.m_prevTime : Int)) % (2 : Int) ^ 32
      ≥ (propStep.m_sampleTime : Int) ∧
    (Compute 32 100 { propStep with m_setpoint := 15 }).2.m_output
      ≤ (Compute 32 100 { propStep with m_setpoint := 40 }).2.m_output ∧
    (Compute 32 100 { propStep with m_setpoint := 15 }).2.m_output = 10 ∧
    (Compute 32 100 { propStep with m_setpoint := 40 }).2.m_output = 60 :=
  ⟨rfl, by norm_num, by norm_num [propStep], by norm_num [propStep],
    by norm_num [propStep], by decide,
    (Compute_monotone_in_setpoint 32 100 propStep 15 40 rfl (by norm_num)
      (by norm_num [propStep]) (by norm_num [propStep]) (by norm_num [propStep])
      (by decide)).2.2.2,
    by norm_num [Compute, Clamp, wsub, propStep],
    by norm_num [Compute, Clamp, wsub, propStep]⟩

/-! ## Hand-over at rest -/

/-- C20: on a disabled controller whose bound output lies within the output
limits, whose bound input lies within the input limits and whose setpoint
equals the input, whatever the gains, `Enable()` followed by a gate-passing
`Compute` returns `true` and leaves the bound output, and the integral term,
equal to the output before `Enable()`. -/
theorem Enable_Compute_steady (w now : Nat) (s : PID)
    (hdis : s.m_isEnabled = false)
    (hout : s.m_outMin ≤ s.m_output ∧ s.m_output ≤ s.m_outMax)
    (hin : s.m_inMin ≤ s.m_input ∧ s.m_input ≤ s.m_inMax)
    (hsp : s.m_setpoint = s.m_input)
    (hgate : ((now : Int) - (s.m_prevTime : Int)) % (2 : Int) ^ w ≥ (s.m_sampleTime : Int)) :
    (Compute w now (Enable s)).1 = true ∧
    (Compute w now (Enable s)).2.m_output = s.m_output ∧
    (Compute w now (Enable s)).2.m_iTerm = s.m_output := by
  have hg : wsub w now s.m_prevTime ≥ s.m_sampleTime :=
    (gate_iff w now s.m_prevTime s.m_sampleTime).mpr hgate
  have ho : Clamp s.m_output s.m_outMin s.m_outMax = s.m_output :=
    Clamp_id _ _ _ hout.1 hout.2
  have hi : Clamp s.m_input s.m_inMin s.m_inMax = s.m_input := Clamp_id _ _ _ hin.1 hin.2
  rw [Enable_disabled s hdis,
    Compute_open w now
      { s with m_isEnabled := true, m_iTerm := Clamp s.m_output s.m_outMin s.m_outMax,
               m_prevInput := s.m_input } rfl hg]
  simp only [referenceStep, hi, hsp, ho, sub_self, mul_zero, add_zero, zero_add, sub_zero,
    and_self]

/-- C20 on a controller at rest with output 40 and gains `(2, 1/5, 30)`: the
stale integral term 99 and previous input 700 do not show, the output stays 40. -/
theorem Enable_Compute_steady_witness :
    steadyManual.m_isEnabled = false ∧
    (steadyManual.m_outMin ≤ steadyManual.m_output ∧
      steadyManual.m_output ≤ steadyManual.m_outMax) ∧
    (steadyManual.m_inMin ≤ steadyManual.m_input ∧
      steadyManual.m_input ≤ steadyManual.m_inMax) ∧
    steadyManual.m_setpoint = steadyManual.m_input ∧
    ((100 : Int) - (steadyManual.m_prevTime : Int)) % (2 : Int) ^ 32
      ≥ (steadyManual.m_sampleTime : Int) ∧
    ((Compute 32 100 (Enable steadyManual)).1 = true ∧
      (Compute 32 100 (Enable steadyManual)).2.m_output = steadyManual.m_output ∧
      (Compute 32 100 (Enable steadyManual)).2.m_iTerm = steadyManual.m_output) ∧
    steadyManual.m_output = 40 :=
  ⟨rfl, by norm_num [steadyManual], by norm_num [steadyManual], rfl, by decide,
    Enable_Compute_steady 32 100 steadyManual rfl (by norm_num [steadyManual])
      (by norm_num [steadyManual]) rfl (by decide),
    rfl⟩

end PID
